import Mathlib

/-!
# Synaptics RMI over PS/2: the register back door

A shallow embedding of `plugins/synaptics-rmi/fu-synaptics-rmi-ps2-device.c`.

* The byte channel (`FuIOChannel`) is the environment.  It is modelled as a
  script: `rx` lists the outcomes of the raw reads still to come, `tx` the
  outcomes of the raw writes still to come.  A read on an exhausted `rx` times
  out; a write on an exhausted `tx` succeeds.  The channel also logs every
  byte handed to the raw write and counts the raw reads.  What the flags of a
  raw write do to pending input (`FLUSH_INPUT`) belongs to the environment:
  `rx` lists what the reads that are made return.
* `g_usleep` and `g_debug` have no effect on the data and are left out.
* A C function `gboolean f (..., GError **error)` becomes a function
  returning `Except GError _` paired with the state it leaves behind.
* Bytes are natural numbers; a conversion to `guint8` is an explicit `% 256`.
-/

namespace SynapticsRmiPs2

/-! ## Errors -/

/-- Error codes of the `G_IO_ERROR` domain that the file tells apart; any other
code (or domain) a transport may report is `OTHER n`. -/
inductive GIOErrorEnum where
  | FAILED
  | TIMED_OUT
  | OTHER (n : Nat)
  deriving DecidableEq, Repr

/-- A `GError`: its code and its message.  Format directives of the message
are kept as written in the source (their arguments are not rendered). -/
structure GError where
  code : GIOErrorEnum
  message : String
  deriving DecidableEq, Repr

/-- Source function `g_prefix_error`: the code is kept, the message gets a prefix. -/
def g_prefix_error (e : GError) (pfx : String) : GError :=
  { e with message := pfx ++ e.message }

/-- Source function `g_error_matches (e, G_IO_ERROR, code)`. -/
def g_error_matches (e : GError) (code : GIOErrorEnum) : Bool :=
  decide (e.code = code)

/-- A `gboolean` result with its `GError`, paired with the state left behind. -/
abbrev Res (σ α : Type) := Except GError α × σ

/-! ## The enumerators of the header -/

/-- The enumerators that the source takes from `fu-synaptics-rmi-ps2-device.h`.
The header is not part of the sources at hand, so the table is a parameter of
every function that names one of them. -/
structure Ps2Codes where
  edpAuxFullRMIBackDoor : Nat
  edpAuxSetScaling1To1 : Nat
  edpAuxSetScaling2To1 : Nat
  edpAuxSetResolution : Nat
  edpAuxStatusRequest : Nat
  edpAuxSetSampleRate : Nat
  edpAuxDisable : Nat
  edpAuxReset : Nat
  essrSetModeByte2 : Nat
  edpsAcknowledge : Nat
  edpsError : Nat
  edpsResend : Nat
  deriving DecidableEq, Repr

/-- A table is well formed when every enumerator is a byte and the three
status codes the write primitive tests for are pairwise distinct. -/
def Ps2Codes.WF (K : Ps2Codes) : Prop :=
  K.edpAuxFullRMIBackDoor < 256 ∧ K.edpAuxSetScaling1To1 < 256 ∧
  K.edpAuxSetScaling2To1 < 256 ∧ K.edpAuxSetResolution < 256 ∧
  K.edpAuxStatusRequest < 256 ∧ K.edpAuxSetSampleRate < 256 ∧
  K.edpAuxDisable < 256 ∧ K.edpAuxReset < 256 ∧ K.essrSetModeByte2 < 256 ∧
  K.edpsAcknowledge < 256 ∧ K.edpsError < 256 ∧ K.edpsResend < 256 ∧
  K.edpsAcknowledge ≠ K.edpsResend ∧ K.edpsAcknowledge ≠ K.edpsError ∧
  K.edpsResend ≠ K.edpsError

instance (K : Ps2Codes) : Decidable K.WF := by
  unfold Ps2Codes.WF; infer_instance

/-- Modelled from the spec: the enumerators of `fu-synaptics-rmi-ps2-device.h`,
which is missing from the sources; the spec (section 6) calls them fixed
numeric constants of the controller family.  This instance carries the
customary PS/2 values and serves only to run the code on concrete inputs;
every general theorem is stated for an arbitrary well-formed table. -/
def ps2 : Ps2Codes where
  edpAuxFullRMIBackDoor := 0x7F
  edpAuxSetScaling1To1 := 0xE6
  edpAuxSetScaling2To1 := 0xE7
  edpAuxSetResolution := 0xE8
  edpAuxStatusRequest := 0xE9
  edpAuxSetSampleRate := 0xF3
  edpAuxDisable := 0xF5
  edpAuxReset := 0xFF
  essrSetModeByte2 := 0x14
  edpsAcknowledge := 0xFA
  edpsError := 0xFC
  edpsResend := 0xFE

/-! ## The byte channel -/

/-- Outcome of one `fu_io_channel_read_raw` of a single byte. -/
inductive RawRead where
  | byte (b : Nat)
  | fail (e : GError)
  deriving DecidableEq, Repr

/-- Outcome of one `fu_io_channel_write_raw`. -/
inductive RawWrite where
  | done
  | fail (e : GError)
  deriving DecidableEq, Repr

/-- The channel: the scripted outcomes still to come, the bytes handed to the
raw write so far (oldest first) and the number of raw reads made so far. -/
structure FuIOChannel where
  rx : List RawRead
  tx : List RawWrite
  written : List Nat
  reads : Nat
  deriving DecidableEq, Repr

/-- The error of a raw read that found nothing to read in time. -/
def timedOut : GError := ⟨.TIMED_OUT, "timed out"⟩

/-- Source function `fu_io_channel_read_raw (ch, pbuf, 1, NULL, timeout, NONE, error)`: the next
scripted outcome; the byte is stored in a `guint8`. -/
def fu_io_channel_read_raw (ch : FuIOChannel) (_timeout : Nat) : Res FuIOChannel Nat :=
  match ch.rx with
  | [] => (.error timedOut, { ch with reads := ch.reads + 1 })
  | .byte b :: rest => (.ok (b % 256), { ch with rx := rest, reads := ch.reads + 1 })
  | .fail e :: rest => (.error e, { ch with rx := rest, reads := ch.reads + 1 })

/-- Source function `fu_io_channel_write_raw (ch, &buf, 1, timeout, flags, error)`: the byte is
logged and the next scripted outcome is returned. -/
def fu_io_channel_write_raw (ch : FuIOChannel) (buf : Nat) (_timeout : Nat) :
    Res FuIOChannel Unit :=
  match ch.tx with
  | [] => (.ok (), { ch with written := ch.written ++ [buf] })
  | .done :: rest => (.ok (), { ch with tx := rest, written := ch.written ++ [buf] })
  | .fail e :: rest => (.error e, { ch with tx := rest, written := ch.written ++ [buf] })

/-! ## Reading the acknowledge, reading and writing one byte

These three functions use `self` only through `self->io_channel`; they are
stated on the channel. -/

/-- The loop of `ReadACK` with `n` iterations left. -/
def ReadACK_loop : Nat → FuIOChannel → Res FuIOChannel Nat
  | 0, ch => (.error ⟨.FAILED, "failed"⟩, ch)
  | n + 1, ch =>
    match fu_io_channel_read_raw ch 60 with
    | (.error error_local, ch1) =>
      if g_error_matches error_local .TIMED_OUT then ReadACK_loop n ch1
      else (.error error_local, ch1)
    | (.ok b, ch1) => (.ok b, ch1)

/-- Source function `ReadACK`: up to 60 raw reads, a time-out meaning "try again". -/
def ReadACK (ch : FuIOChannel) : Res FuIOChannel Nat :=
  ReadACK_loop 60 ch

/-- Source function `ReadByte`: one raw read. -/
def ReadByte (ch : FuIOChannel) (timeout : Nat) : Res FuIOChannel Nat :=
  fu_io_channel_read_raw ch timeout

/-- The loop of `WriteByte` with `n` iterations left; `buf` is a `guint8`. -/
def WriteByte_loop (K : Ps2Codes) (buf timeout : Nat) :
    Nat → Bool → FuIOChannel → Res FuIOChannel Unit
  | 0, _, ch => (.error ⟨.FAILED, "failed"⟩, ch)
  | n + 1, do_write, ch =>
    match (if do_write then fu_io_channel_write_raw ch buf timeout else (.ok (), ch)) with
    | (.error e, ch1) => (.error e, ch1)
    | (.ok _, ch1) =>
      match ReadACK ch1 with
      | (.error _, ch2) => WriteByte_loop K buf timeout n false ch2
      | (.ok res, ch2) =>
        if res = K.edpsAcknowledge then (.ok (), ch2)
        else if res = K.edpsResend then WriteByte_loop K buf timeout n true ch2
        else if res = K.edpsError then WriteByte_loop K buf timeout n true ch2
        else WriteByte_loop K buf timeout n false ch2

/-- Source function `WriteByte`: write one byte and read the acknowledge, three attempts. -/
def WriteByte (K : Ps2Codes) (ch : FuIOChannel) (buf timeout : Nat) : Res FuIOChannel Unit :=
  WriteByte_loop K (buf % 256) timeout 3 true ch

/-! ## Command sequences -/

/-- The first loop of the set-resolution sequence, `i` counting down to 1. -/
def set_scaling_loop (K : Ps2Codes) : Nat → FuIOChannel → Res FuIOChannel Unit
  | 0, ch => (.ok (), ch)
  | i + 1, ch =>
    match WriteByte K ch K.edpAuxSetScaling1To1 50 with
    | (.error e, ch1) => (.error e, ch1)
    | (.ok _, ch1) => set_scaling_loop K i ch1

/-- The second loop of the set-resolution sequence; `n` is `i + 1`, so that
`i` runs 3, 2, 1, 0 when started at 4. -/
def set_resolution_loop (K : Ps2Codes) (arg : Nat) : Nat → FuIOChannel → Res FuIOChannel Unit
  | 0, ch => (.ok (), ch)
  | i + 1, ch =>
    let ucTwoBitArg := (arg >>> (i * 2)) &&& 0x3
    match WriteByte K ch K.edpAuxSetResolution 50 with
    | (.error e, ch1) => (.error e, ch1)
    | (.ok _, ch1) =>
      match WriteByte K ch1 ucTwoBitArg 50 with
      | (.error e, ch2) => (.error e, ch2)
      | (.ok _, ch2) => set_resolution_loop K arg i ch2

/-- Source function `fu_synaptics_rmi_ps2_device_set_resolution_sequence`; `arg` is a `guint8`. -/
def fu_synaptics_rmi_ps2_device_set_resolution_sequence (K : Ps2Codes) (ch : FuIOChannel)
    (arg : Nat) (send_e6s : Bool) : Res FuIOChannel Unit :=
  match set_scaling_loop K (if send_e6s then 2 else 1) ch with
  | (.error e, ch1) => (.error e, ch1)
  | (.ok _, ch1) => set_resolution_loop K (arg % 256) 4 ch1

/-- The retry loop of the sample-rate sequence: `n` iterations left, `i` the
loop counter of the source. -/
def sample_rate_loop (K : Ps2Codes) (param arg : Nat) :
    Nat → Nat → Bool → FuIOChannel → Res FuIOChannel Unit
  | 0, _, _, ch => (.error ⟨.FAILED, "too many tries"⟩, ch)
  | n + 1, i, send_e6s, ch =>
    let send_e6s := if i > 0 then true else send_e6s
    match fu_synaptics_rmi_ps2_device_set_resolution_sequence K ch arg send_e6s with
    | (.error _, ch1) => sample_rate_loop K param arg n (i + 1) send_e6s ch1
    | (.ok _, ch1) =>
      match WriteByte K ch1 K.edpAuxSetSampleRate 50 with
      | (.error _, ch2) => sample_rate_loop K param arg n (i + 1) send_e6s ch2
      | (.ok _, ch2) =>
        match WriteByte K ch2 param 50 with
        | (.error _, ch3) => sample_rate_loop K param arg n (i + 1) send_e6s ch3
        | (.ok _, ch3) => (.ok (), ch3)

/-- Source function `fu_synaptics_rmi_ps2_device_sample_rate_sequence`. -/
def fu_synaptics_rmi_ps2_device_sample_rate_sequence (K : Ps2Codes) (ch : FuIOChannel)
    (param arg : Nat) (send_e6s : Bool) : Res FuIOChannel Unit :=
  sample_rate_loop K param arg 3 0 send_e6s ch

/-- Source function `fu_synaptics_rmi_ps2_device_enable_rmi_backdoor`. -/
def fu_synaptics_rmi_ps2_device_enable_rmi_backdoor (K : Ps2Codes) (ch : FuIOChannel) :
    Res FuIOChannel Unit :=
  match WriteByte K ch K.edpAuxDisable 50 with
  | (.error e, ch1) => (.error (g_prefix_error e "failed to disable stream mode: "), ch1)
  | (.ok _, ch1) =>
    match fu_synaptics_rmi_ps2_device_sample_rate_sequence K ch1
        K.essrSetModeByte2 K.edpAuxFullRMIBackDoor false with
    | (.error e, ch2) => (.error (g_prefix_error e "failed to enter RMI mode: "), ch2)
    | (.ok _, ch2) => (.ok (), ch2)

/-! ## The device and the register access -/

/-- The fields of `struct _FuSynapticsRmiPs2Device` that the file uses, and the
`FWUPD_DEVICE_FLAG_IS_BOOTLOADER` flag of the parent instance. -/
structure FuSynapticsRmiPs2Device where
  io_channel : FuIOChannel
  currentPage : Nat
  inRMIBackdoor : Bool
  is_bootloader : Bool
  deriving DecidableEq, Repr

/-- The guard that opens the three register functions:
`!self->inRMIBackdoor && !enable_rmi_backdoor (self, error)`. -/
def backdoor_guard (K : Ps2Codes) (self : FuSynapticsRmiPs2Device) :
    Res FuSynapticsRmiPs2Device Unit :=
  if self.inRMIBackdoor then (.ok (), self)
  else
    match fu_synaptics_rmi_ps2_device_enable_rmi_backdoor K self.io_channel with
    | (.error e, ch1) =>
      (.error (g_prefix_error e "failed to enable RMI backdoor: "), { self with io_channel := ch1 })
    | (.ok _, ch1) => (.ok (), { self with io_channel := ch1 })

/-- The data loop of `WriteRMIRegister`: `n` iterations left, `numBytes` the
loop counter; `buf[numBytes]` is read from the caller's array. -/
def write_data_loop (K : Ps2Codes) (buf : List Nat) (timeout : Nat) :
    Nat → Nat → FuIOChannel → Res FuIOChannel Unit
  | 0, _, ch => (.ok (), ch)
  | n + 1, numBytes, ch =>
    match WriteByte K ch K.edpAuxSetSampleRate timeout with
    | (.error e, ch1) => (.error (g_prefix_error e "failed to WriteByte: "), ch1)
    | (.ok _, ch1) =>
      match WriteByte K ch1 (buf.getD numBytes 0) timeout with
      | (.error e, ch2) => (.error (g_prefix_error e "failed to WriteByte: "), ch2)
      | (.ok _, ch2) => write_data_loop K buf timeout n (numBytes + 1) ch2

/-- Source function `WriteRMIRegister (self, addr, buf, len, timeout, error)`; `addr` and `len`
are `guint8`, `buf` points to at least `len` bytes. -/
def WriteRMIRegister (K : Ps2Codes) (self : FuSynapticsRmiPs2Device) (addr : Nat)
    (buf : List Nat) (len : Nat) (timeout : Nat) : Res FuSynapticsRmiPs2Device Unit :=
  match backdoor_guard K self with
  | (.error e, s1) => (.error e, s1)
  | (.ok _, s1) =>
    match WriteByte K s1.io_channel K.edpAuxSetScaling2To1 timeout with
    | (.error e, ch) =>
      (.error (g_prefix_error e "failed to edpAuxSetScaling2To1: "), { s1 with io_channel := ch })
    | (.ok _, ch) =>
      match WriteByte K ch K.edpAuxSetSampleRate timeout with
      | (.error e, ch) =>
        (.error (g_prefix_error e "failed to edpAuxSetSampleRate: "), { s1 with io_channel := ch })
      | (.ok _, ch) =>
        match WriteByte K ch addr timeout with
        | (.error e, ch) =>
          (.error (g_prefix_error e "failed to write address: "), { s1 with io_channel := ch })
        | (.ok _, ch) =>
          match write_data_loop K buf timeout (len % 256) 0 ch with
          | (.error e, ch) => (.error e, { s1 with io_channel := ch })
          | (.ok _, ch) => (.ok (), { s1 with io_channel := ch })

/-- The four command bytes that open a register read:
`WriteByte (SetScaling2To1) || WriteByte (SetSampleRate) || WriteByte (addr) ||
WriteByte (StatusRequest)`, all with time-out 0. -/
def read_command (K : Ps2Codes) (ch : FuIOChannel) (addr : Nat) : Res FuIOChannel Unit :=
  match WriteByte K ch K.edpAuxSetScaling2To1 0 with
  | (.error e, ch) => (.error e, ch)
  | (.ok _, ch) =>
    match WriteByte K ch K.edpAuxSetSampleRate 0 with
    | (.error e, ch) => (.error e, ch)
    | (.ok _, ch) =>
      match WriteByte K ch addr 0 with
      | (.error e, ch) => (.error e, ch)
      | (.ok _, ch) => WriteByte K ch K.edpAuxStatusRequest 0

/-- The read loop of `ReadRMIRegister`: `n` iterations left, `i` the loop
counter, `response` a `guint32`. -/
def read_response_loop : Nat → Nat → Nat → FuIOChannel → Res FuIOChannel Nat
  | 0, _, response, ch => (.ok response, ch)
  | n + 1, i, response, ch =>
    match ReadByte ch 0 with
    | (.error e, ch1) => (.error (g_prefix_error e "failed to read byte %u: "), ch1)
    | (.ok tmp, ch1) =>
      read_response_loop n (i + 1) ((response ||| (tmp <<< (8 * i))) % 2 ^ 32) ch1

/-- Source function `ReadRMIRegister (self, addr, buf, error)`.  `buf` is `none` for a null
pointer and `some v` for a pointer to a byte that holds `v`; the result is the
byte stored through `buf`. -/
def ReadRMIRegister (K : Ps2Codes) (self : FuSynapticsRmiPs2Device) (addr : Nat)
    (buf : Option Nat) : Res FuSynapticsRmiPs2Device Nat :=
  match buf with
  | none => (.error ⟨.FAILED, "no buffer set!"⟩, self)
  | some _ =>
    match backdoor_guard K self with
    | (.error e, s1) => (.error e, s1)
    | (.ok _, s1) =>
      match read_command K s1.io_channel addr with
      | (.error e, ch) =>
        (.error (g_prefix_error e "failed to write command in Read RMI register: "),
          { s1 with io_channel := ch })
      | (.ok _, ch) =>
        match read_response_loop 3 0 0 ch with
        | (.error e, ch) => (.error e, { s1 with io_channel := ch })
        | (.ok response, ch) => (.ok (response % 256), { s1 with io_channel := ch })

/-- The read loop of `ReadRMIPacketRegister`: `n` iterations left, `i` the loop
counter, `buf` the caller's array. -/
def read_packet_loop : Nat → Nat → List Nat → FuIOChannel → Res FuIOChannel (List Nat)
  | 0, _, buf, ch => (.ok buf, ch)
  | n + 1, i, buf, ch =>
    match ReadByte ch 0 with
    | (.error e, ch1) => (.error (g_prefix_error e "failed to read byte %u: "), ch1)
    | (.ok tmp, ch1) => read_packet_loop n (i + 1) (buf.set i tmp) ch1

/-- Source function `ReadRMIPacketRegister (self, addr, buf, len, error)`.  `buf` is `none` for
a null pointer and `some b` for a pointer to the array `b` (of at least `len`
bytes); the result is the array after the call.  `len` is a `guint`. -/
def ReadRMIPacketRegister (K : Ps2Codes) (self : FuSynapticsRmiPs2Device) (addr : Nat)
    (buf : Option (List Nat)) (len : Nat) : Res FuSynapticsRmiPs2Device (List Nat) :=
  match buf with
  | none => (.error ⟨.FAILED, "no buffer set!"⟩, self)
  | some b =>
    match backdoor_guard K self with
    | (.error e, s1) => (.error e, s1)
    | (.ok _, s1) =>
      match read_command K s1.io_channel addr with
      | (.error e, ch) =>
        (.error (g_prefix_error e "failed to write command in Read RMI Packet Register: "),
          { s1 with io_channel := ch })
      | (.ok _, ch) =>
        match read_packet_loop (len % 2 ^ 32) 0 b ch with
        | (.error e, ch) => (.error e, { s1 with io_channel := ch })
        | (.ok b1, ch) => (.ok b1, { s1 with io_channel := ch })

/-- Source function `SetRMIPage (self, page, error)`; `page` is a `guint`, `currentPage` a
`guint8`.  `&page` is handed over as the one-byte data buffer, which on a
little-endian host is the low byte of `page`. -/
def SetRMIPage (K : Ps2Codes) (self : FuSynapticsRmiPs2Device) (page : Nat) :
    Res FuSynapticsRmiPs2Device Unit :=
  if self.currentPage = page then (.ok (), self)
  else
    match WriteRMIRegister K self 0xFF [page % 256] 1 20 with
    | (.error e, s1) => (.error (g_prefix_error e "failed to write page %d: "), s1)
    | (.ok _, s1) => (.ok (), { s1 with currentPage := page % 256 })

/-- The per-register loop of `Read`: `n` iterations left, `i` the loop counter;
`&buf[i]` is null exactly when `buf` is. -/
def read_registers_loop (K : Ps2Codes) (addr : Nat) :
    Nat → Nat → Option (List Nat) → FuSynapticsRmiPs2Device →
      Res FuSynapticsRmiPs2Device (Option (List Nat))
  | 0, _, buf, self => (.ok buf, self)
  | n + 1, i, buf, self =>
    match ReadRMIRegister K self (((addr &&& 0x00FF) + i) % 256)
        (buf.map fun b => b.getD i 0) with
    | (.error e, s1) => (.error (g_prefix_error e "failed register read %x:"), s1)
    | (.ok v, s1) => read_registers_loop K addr n (i + 1) (buf.map fun b => b.set i v) s1

/-- Source function `Read (self, addr, buf, len, isPacketRegister, error)`.  The parameters
`addr` and `len` are declared `guint8`: the caller's values are converted on
entry.  The result is the caller's array after the call. -/
def Read (K : Ps2Codes) (self : FuSynapticsRmiPs2Device) (addr : Nat)
    (buf : Option (List Nat)) (len : Nat) (isPacketRegister : Bool) :
    Res FuSynapticsRmiPs2Device (Option (List Nat)) :=
  let addr := addr % 256
  let len := len % 256
  match SetRMIPage K self (addr >>> 8) with
  | (.error e, s1) => (.error (g_prefix_error e "failed to set RMI page:"), s1)
  | (.ok _, s1) =>
    if isPacketRegister then
      match ReadRMIPacketRegister K s1 addr buf len with
      | (.error e, s2) => (.error (g_prefix_error e "failed packet register read %x:"), s2)
      | (.ok b, s2) => (.ok (some b), s2)
    else read_registers_loop K addr len 0 buf s1

/-- Source function `Write (self, addr, data, len, timeout, error)`.  The parameters `addr` and
`len` are declared `guint8`: the caller's values are converted on entry. -/
def Write (K : Ps2Codes) (self : FuSynapticsRmiPs2Device) (addr : Nat)
    (data : List Nat) (len : Nat) (timeout : Nat) : Res FuSynapticsRmiPs2Device Unit :=
  let addr := addr % 256
  let len := len % 256
  match SetRMIPage K self (addr >>> 8) with
  | (.error e, s1) => (.error (g_prefix_error e "failed to set RMI page:"), s1)
  | (.ok _, s1) =>
    match WriteRMIRegister K s1 (addr &&& 0x00FF) data len timeout with
    | (.error e, s2) => (.error (g_prefix_error e "failed to write register %x:"), s2)
    | (.ok _, s2) => (.ok (), s2)

/-! ## Opening and closing the device -/

/-- The loop of `open` that empties the serio_raw queue: at most `n` reads,
stopping at the first one that fails (its error is dropped). -/
def drain_loop : Nat → FuIOChannel → FuIOChannel
  | 0, ch => ch
  | n + 1, ch =>
    match ReadByte ch 20 with
    | (.error _, ch1) => ch1
    | (.ok _, ch1) => drain_loop n ch1

/-- Source function `fu_synaptics_rmi_ps2_device_open`.  The channel made by
`fu_io_channel_unix_new` for the device's file descriptor is the argument
`ch`; it replaces `self->io_channel`. -/
def fu_synaptics_rmi_ps2_device_open (K : Ps2Codes) (self : FuSynapticsRmiPs2Device)
    (ch : FuIOChannel) : Res FuSynapticsRmiPs2Device Unit :=
  if self.is_bootloader then
    let ch0 := drain_loop 0xffff ch
    match WriteByte K ch0 K.edpAuxReset 600 with
    | (.error e, ch1) =>
      (.error (g_prefix_error e "failed to reset: "), { self with io_channel := ch1 })
    | (.ok _, ch1) =>
      match ReadByte ch1 500 with
      | (.error e, ch2) =>
        (.error (g_prefix_error e "failed to read 0xAA00: "), { self with io_channel := ch2 })
      | (.ok buf0, ch2) =>
        match ReadByte ch2 500 with
        | (.error e, ch3) =>
          (.error (g_prefix_error e "failed to read 0xAA00: "), { self with io_channel := ch3 })
        | (.ok buf1, ch3) =>
          if buf0 ≠ 0xAA ∨ buf1 ≠ 0x00 then
            (.error ⟨.FAILED, "failed to read 0xAA00, got 0x%02X%02X: "⟩,
              { self with io_channel := ch3 })
          else
            match WriteByte K ch3 K.edpAuxDisable 50 with
            | (.error e, ch4) =>
              (.error (g_prefix_error e "failed to disable stream mode: "),
                { self with io_channel := ch4 })
            | (.ok _, ch4) => (.ok (), { self with io_channel := ch4 })
  else (.ok (), { self with io_channel := ch })

/-- Source function `fu_synaptics_rmi_ps2_device_close`: the file descriptor
is set to -1 and `g_clear_object (&self->io_channel)` drops the channel; no
other field of the structure is assigned.  The cleared pointer is shown as the
empty channel; `open` puts a new channel in its place. -/
def fu_synaptics_rmi_ps2_device_close (self : FuSynapticsRmiPs2Device) :
    Res FuSynapticsRmiPs2Device Unit :=
  (.ok (), { self with io_channel := ⟨[], [], [], 0⟩ })

/-! ## Vocabulary of the statements -/

deriving instance DecidableEq for Except

/-- No raw write still to come fails. -/
def TxOk (ch : FuIOChannel) : Prop := ∀ w ∈ ch.tx, w = RawWrite.done

instance (ch : FuIOChannel) : Decidable (TxOk ch) := by
  unfold TxOk; infer_instance

/-- The transport acknowledges the next `n` written bytes: the next `n` raw
reads each deliver the acknowledge status and no raw write fails. -/
def Acks (K : Ps2Codes) (n : Nat) (ch : FuIOChannel) : Prop :=
  ch.rx.take n = List.replicate n (RawRead.byte K.edpsAcknowledge) ∧ TxOk ch

instance (K : Ps2Codes) (n : Nat) (ch : FuIOChannel) : Decidable (Acks K n ch) := by
  unfold Acks; infer_instance

/-- The channel after the bytes `bs` have been written and acknowledged, one
raw read for each. -/
def FuIOChannel.acked (ch : FuIOChannel) (bs : List Nat) : FuIOChannel :=
  ⟨ch.rx.drop bs.length, ch.tx.drop bs.length, ch.written ++ bs, ch.reads + bs.length⟩

/-- The bytes of one enable-backdoor sequence whose writes are all
acknowledged at the first attempt: disable, then the sample-rate sequence
with `send_e6s = FALSE` (one set-scaling byte, the four resolution pairs of
the back-door argument, set sample rate, the mode byte). -/
def enable_backdoor_bytes (K : Ps2Codes) : List Nat :=
  [K.edpAuxDisable, K.edpAuxSetScaling1To1,
   K.edpAuxSetResolution, (K.edpAuxFullRMIBackDoor >>> 6) &&& 3,
   K.edpAuxSetResolution, (K.edpAuxFullRMIBackDoor >>> 4) &&& 3,
   K.edpAuxSetResolution, (K.edpAuxFullRMIBackDoor >>> 2) &&& 3,
   K.edpAuxSetResolution, K.edpAuxFullRMIBackDoor &&& 3,
   K.edpAuxSetSampleRate, K.essrSetModeByte2]

/-- What a register function writes before its first command byte: nothing
when the back-door flag is set, one enable-backdoor sequence otherwise. -/
def backdoor_bytes (K : Ps2Codes) (self : FuSynapticsRmiPs2Device) : List Nat :=
  if self.inRMIBackdoor then [] else enable_backdoor_bytes K

/-- The result of an acknowledge read that makes the next attempt of
`WriteByte` write the byte again: the resend or the error status. -/
def asks_resend (K : Ps2Codes) (r : Except GError Nat) : Bool :=
  decide (r = .ok K.edpsResend) || decide (r = .ok K.edpsError)

/-- One attempt of the sample-rate sequence, in the words of the spec: the
set-resolution sequence, then "set sample rate", then `param`; the attempt
succeeds when every one of these writes is acknowledged.  The result is
whether it succeeded and the channel it leaves. -/
def sample_rate_attempt (K : Ps2Codes) (ch : FuIOChannel) (param arg : Nat) (send_e6s : Bool) :
    Bool × FuIOChannel :=
  match fu_synaptics_rmi_ps2_device_set_resolution_sequence K ch arg send_e6s with
  | (.error _, c1) => (false, c1)
  | (.ok _, c1) =>
    match WriteByte K c1 K.edpAuxSetSampleRate 50 with
    | (.error _, c2) => (false, c2)
    | (.ok _, c2) =>
      match WriteByte K c2 param 50 with
      | (.error _, c3) => (false, c3)
      | (.ok _, c3) => (true, c3)

/-- The bytes of one register write, in the words of the spec: "set scaling
2:1", "set sample rate", the offset, then for each of the first `n` data
bytes "set sample rate" followed by the byte. -/
def write_register_bytes (K : Ps2Codes) (a : Nat) (d : List Nat) (n : Nat) : List Nat :=
  [K.edpAuxSetScaling2To1, K.edpAuxSetSampleRate, a] ++
    (d.take n).flatMap fun x => [K.edpAuxSetSampleRate, x]

/-- A list of bytes handed to `WriteByte` one after the other, stopping at the
first write that fails: whether all were acknowledged, and the channel left. -/
def send_bytes (K : Ps2Codes) (t : Nat) : List Nat → FuIOChannel → Bool × FuIOChannel
  | [], ch => (true, ch)
  | b :: bs, ch =>
    match WriteByte K ch b t with
    | (.error _, ch1) => (false, ch1)
    | (.ok _, ch1) => send_bytes K t bs ch1

/-- What the transport delivers for one register read that goes well: the
acknowledge of each of the `m` bytes the call writes, then three raw bytes. -/
def register_read_script (K : Ps2Codes) (m : Nat) (tr : Nat × Nat × Nat) : List RawRead :=
  List.replicate m (RawRead.byte K.edpsAcknowledge) ++
    [RawRead.byte tr.1, RawRead.byte tr.2.1, RawRead.byte tr.2.2]

/-- What `SetRMIPage (page)` writes on an acknowledging transport: nothing
when `page` is the current page, otherwise one register write of the page to
the control address `0xFF` (with the enable sequence first when the back-door
flag is clear). -/
def page_select_bytes (K : Ps2Codes) (self : FuSynapticsRmiPs2Device) (page : Nat) : List Nat :=
  if self.currentPage = page then []
  else backdoor_bytes K self ++
    [K.edpAuxSetScaling2To1, K.edpAuxSetSampleRate, 0xFF, K.edpAuxSetSampleRate, page % 256]

/-! ## Theorems

First the behaviour of the primitives on an acknowledging transport. -/

theorem Ps2Codes.WF.ack_lt {K : Ps2Codes} (h : K.WF) : K.edpsAcknowledge < 256 := h.2.2.2.2.2.2.2.2.2.1

theorem acked_nil (ch : FuIOChannel) : ch.acked [] = ch := by
  simp [FuIOChannel.acked]

theorem acked_acked (ch : FuIOChannel) (as bs : List Nat) :
    (ch.acked as).acked bs = ch.acked (as ++ bs) := by
  simp [FuIOChannel.acked, List.drop_drop, Nat.add_comm, Nat.add_assoc]

theorem Acks.mono {K : Ps2Codes} {m n : Nat} {ch : FuIOChannel} (h : Acks K m ch) (hn : n ≤ m) :
    Acks K n ch := by
  refine ⟨?_, h.2⟩
  have h1 := congrArg (List.take n) h.1
  rw [List.take_take, Nat.min_eq_left hn, List.take_replicate, Nat.min_eq_left hn] at h1
  exact h1

theorem Acks.acked {K : Ps2Codes} {n : Nat} {ch : FuIOChannel} (bs : List Nat)
    (h : Acks K (bs.length + n) ch) : Acks K n (ch.acked bs) := by
  obtain ⟨h1, h2⟩ := h
  refine ⟨?_, ?_⟩
  · have h3 := congrArg (List.drop bs.length) h1
    simp only [FuIOChannel.acked]
    rw [List.drop_take] at h3
    simpa using h3
  · intro w hw
    exact h2 w (List.mem_of_mem_drop hw)

theorem write_raw_ok (ch : FuIOChannel) (b t : Nat) (h : TxOk ch) :
    fu_io_channel_write_raw ch b t = (.ok (), { ch with tx := ch.tx.drop 1, written := ch.written ++ [b] }) := by
  unfold fu_io_channel_write_raw
  rcases hx : ch.tx with _ | ⟨w, r⟩
  · simp
  · have : w = .done := h w (by simp [hx])
    subst this
    simp

theorem read_raw_byte (ch : FuIOChannel) (b t : Nat) (r : List RawRead) (h : ch.rx = .byte b :: r) :
    fu_io_channel_read_raw ch t = (.ok (b % 256), { ch with rx := r, reads := ch.reads + 1 }) := by
  unfold fu_io_channel_read_raw
  rw [h]

theorem ReadACK_byte (ch : FuIOChannel) (b : Nat) (r : List RawRead) (h : ch.rx = .byte b :: r) :
    ReadACK ch = (.ok (b % 256), { ch with rx := r, reads := ch.reads + 1 }) := by
  unfold ReadACK
  rw [ReadACK_loop, read_raw_byte ch b 60 r h]

theorem WriteByte_acked {K : Ps2Codes} (hK : K.WF) {n : Nat} {ch : FuIOChannel}
    (h : Acks K (n + 1) ch) (b t : Nat) :
    WriteByte K ch b t = (.ok (), ch.acked [b % 256]) := by
  obtain ⟨h1, h2⟩ := h
  rcases hx : ch.rx with _ | ⟨x, r⟩
  · rw [hx] at h1; simp [List.replicate_succ] at h1
  · rw [hx, List.replicate_succ] at h1
    simp at h1
    obtain ⟨rfl, -⟩ := h1
    unfold WriteByte
    rw [WriteByte_loop]
    simp only [if_true, write_raw_ok ch _ t h2]
    rw [ReadACK_byte _ K.edpsAcknowledge r (by simpa using hx)]
    simp [Nat.mod_eq_of_lt hK.ack_lt, FuIOChannel.acked, hx]


theorem Ps2Codes.WF.resend_lt {K : Ps2Codes} (h : K.WF) : K.edpsResend < 256 :=
  h.2.2.2.2.2.2.2.2.2.2.2.1

theorem Ps2Codes.WF.ack_ne_resend {K : Ps2Codes} (h : K.WF) :
    K.edpsAcknowledge ≠ K.edpsResend := h.2.2.2.2.2.2.2.2.2.2.2.2.1

theorem Ps2Codes.WF.scaling11_lt {K : Ps2Codes} (h : K.WF) : K.edpAuxSetScaling1To1 < 256 :=
  h.2.1

theorem Ps2Codes.WF.resolution_lt {K : Ps2Codes} (h : K.WF) : K.edpAuxSetResolution < 256 :=
  h.2.2.2.1

theorem WriteByte_acked_lt {K : Ps2Codes} (hK : K.WF) {n : Nat} {ch : FuIOChannel}
    (h : Acks K (n + 1) ch) {b : Nat} (hb : b < 256) (t : Nat) :
    WriteByte K ch b t = (.ok (), ch.acked [b]) := by
  rw [WriteByte_acked hK h, Nat.mod_eq_of_lt hb]

theorem set_scaling_loop_acked {K : Ps2Codes} (hK : K.WF) (n : Nat) :
    ∀ (i : Nat) (ch : FuIOChannel), Acks K (i + n) ch →
      set_scaling_loop K i ch = (.ok (), ch.acked (List.replicate i K.edpAuxSetScaling1To1)) := by
  intro i
  induction i with
  | zero => intro ch _; simp [set_scaling_loop, acked_nil]
  | succ i ih =>
    intro ch h
    have h1 : Acks K ((i + n) + 1) ch := by
      have : i + 1 + n = (i + n) + 1 := by omega
      rwa [this] at h
    have h2 : Acks K (i + n) (ch.acked [K.edpAuxSetScaling1To1]) :=
      Acks.acked [K.edpAuxSetScaling1To1] (by simpa [Nat.add_comm] using h1)
    rw [set_scaling_loop, WriteByte_acked_lt hK h1 hK.scaling11_lt]
    simp only [ih _ h2, acked_acked, List.replicate_succ, List.singleton_append]

/-- The bytes of the second loop of the set-resolution sequence started at
`i + 1 = n`: `n` pairs (set resolution, two-bit slice), highest slice first. -/
theorem set_resolution_loop_acked {K : Ps2Codes} (hK : K.WF) (arg n : Nat) :
    ∀ (i : Nat) (ch : FuIOChannel), Acks K (2 * i + n) ch →
      set_resolution_loop K arg i ch =
        (.ok (), ch.acked (((List.range i).reverse.map fun j =>
          [K.edpAuxSetResolution, (arg >>> (j * 2)) &&& 0x3]).flatten)) := by
  intro i
  induction i with
  | zero => intro ch _; simp [set_resolution_loop, acked_nil]
  | succ i ih =>
    intro ch h
    have hs : (arg >>> (i * 2)) &&& 0x3 < 256 :=
      Nat.lt_of_le_of_lt Nat.and_le_right (by decide)
    have h1 : Acks K ((2 * i + n + 1) + 1) ch := by
      have : 2 * (i + 1) + n = (2 * i + n + 1) + 1 := by omega
      rwa [this] at h
    have h2 : Acks K ((2 * i + n) + 1) (ch.acked [K.edpAuxSetResolution]) :=
      Acks.acked [K.edpAuxSetResolution] (by simpa [Nat.add_comm] using h1)
    have h3 : Acks K (2 * i + n)
        ((ch.acked [K.edpAuxSetResolution]).acked [(arg >>> (i * 2)) &&& 0x3]) :=
      Acks.acked [(arg >>> (i * 2)) &&& 0x3] (by simpa [Nat.add_comm] using h2)
    rw [set_resolution_loop]
    simp only [WriteByte_acked_lt hK h1 hK.resolution_lt, WriteByte_acked_lt hK h2 hs, ih _ h3]
    simp only [acked_acked, List.range_succ, List.reverse_append, List.reverse_cons, List.reverse_nil,
      List.nil_append, List.singleton_append, List.map_cons, List.flatten_cons, List.cons_append]

theorem two_bit_slices (arg : Nat) (h : arg < 256) :
    ((arg >>> 6) &&& 3) * 64 + ((arg >>> 4) &&& 3) * 16 + ((arg >>> 2) &&& 3) * 4 + (arg &&& 3)
      = arg := by
  have e : ∀ x : Nat, x &&& 3 = x % 4 := fun x => Nat.and_pow_two_sub_one_eq_mod x 2
  simp only [e, Nat.shiftRight_eq_div_pow]
  omega

theorem WriteByte_loop_resend {K : Ps2Codes} (hK : K.WF) (b t : Nat) :
    ∀ (n : Nat) (ch : FuIOChannel),
      ch.rx.take n = List.replicate n (RawRead.byte K.edpsResend) → TxOk ch →
      WriteByte_loop K b t n true ch =
        (.error ⟨.FAILED, "failed"⟩,
          ⟨ch.rx.drop n, ch.tx.drop n, ch.written ++ List.replicate n b, ch.reads + n⟩) := by
  intro n
  induction n with
  | zero => intro ch _ _; simp [WriteByte_loop]
  | succ n ih =>
    intro ch h1 h2
    rcases hx : ch.rx with _ | ⟨x, r⟩
    · rw [hx] at h1; simp [List.replicate_succ] at h1
    · rw [hx, List.replicate_succ] at h1
      simp at h1
      obtain ⟨rfl, h1⟩ := h1
      rw [WriteByte_loop]
      simp only [if_true, write_raw_ok ch _ t h2]
      rw [ReadACK_byte _ K.edpsResend r (by simpa using hx)]
      have hne : ¬ K.edpsResend = K.edpsAcknowledge := fun e => hK.ack_ne_resend e.symm
      simp only [Nat.mod_eq_of_lt hK.resend_lt, hne, if_false, if_true]
      rw [ih _ (by simpa using h1) (by
        intro w hw
        exact h2 w (List.mem_of_mem_drop hw))]
      simp [hx, List.replicate_succ, Nat.add_comm, Nat.add_assoc, Nat.add_left_comm]

theorem set_resolution_sequence_acked {K : Ps2Codes} (hK : K.WF) (ch : FuIOChannel)
    (arg : Nat) (send_e6s : Bool) (harg : arg < 256)
    (hack : Acks K ((if send_e6s then 2 else 1) + 8) ch) :
    fu_synaptics_rmi_ps2_device_set_resolution_sequence K ch arg send_e6s =
        (.ok (), ch.acked (List.replicate (if send_e6s then 2 else 1) K.edpAuxSetScaling1To1 ++
          [K.edpAuxSetResolution, (arg >>> 6) &&& 3, K.edpAuxSetResolution, (arg >>> 4) &&& 3,
           K.edpAuxSetResolution, (arg >>> 2) &&& 3, K.edpAuxSetResolution, arg &&& 3])) := by
  unfold fu_synaptics_rmi_ps2_device_set_resolution_sequence
  rw [set_scaling_loop_acked hK 8 _ ch hack]
  have h2 : Acks K (2 * 4 + 0) (ch.acked
      (List.replicate (if send_e6s then 2 else 1) K.edpAuxSetScaling1To1)) :=
    Acks.acked _ (by simpa using hack)
  simp only [Nat.mod_eq_of_lt harg]
  rw [set_resolution_loop_acked hK arg 0 4 _ h2, acked_acked]
  simp [List.range_succ]

/-- C1: on a transport that acknowledges every written byte, for every
`arg` in 0..255 and either value of `send_e6s`, the set-resolution sequence
succeeds and, after its set-scaling bytes, writes exactly the four pairs
(set resolution, slice) with the slices `(arg>>6)&3`, `(arg>>4)&3`,
`(arg>>2)&3`, `arg&3` in this order; each slice is below 4 and the slices,
read most significant first, give back `arg`. -/
theorem C1_set_resolution_slices (K : Ps2Codes) (hK : K.WF) (ch : FuIOChannel)
    (arg : Nat) (send_e6s : Bool) (harg : arg < 256)
    (hack : Acks K ((if send_e6s then 2 else 1) + 8) ch) :
    fu_synaptics_rmi_ps2_device_set_resolution_sequence K ch arg send_e6s =
        (.ok (), ch.acked (List.replicate (if send_e6s then 2 else 1) K.edpAuxSetScaling1To1 ++
          [K.edpAuxSetResolution, (arg >>> 6) &&& 3, K.edpAuxSetResolution, (arg >>> 4) &&& 3,
           K.edpAuxSetResolution, (arg >>> 2) &&& 3, K.edpAuxSetResolution, arg &&& 3])) ∧
      (arg >>> 6) &&& 3 < 4 ∧ (arg >>> 4) &&& 3 < 4 ∧ (arg >>> 2) &&& 3 < 4 ∧ arg &&& 3 < 4 ∧
      ((arg >>> 6) &&& 3) * 64 + ((arg >>> 4) &&& 3) * 16 + ((arg >>> 2) &&& 3) * 4 + (arg &&& 3)
        = arg := by
  have hlt : ∀ x : Nat, x &&& 3 < 4 := fun x => Nat.lt_succ_of_le Nat.and_le_right
  exact ⟨set_resolution_sequence_acked hK ch arg send_e6s harg hack, hlt _, hlt _, hlt _, hlt _,
    two_bit_slices arg harg⟩

/-- An instance of C1: `arg = 0x7F`, one set-scaling byte. -/
theorem C1_set_resolution_slices_witness :
    fu_synaptics_rmi_ps2_device_set_resolution_sequence ps2
        ⟨List.replicate 9 (.byte 0xFA), [], [], 0⟩ 0x7F false =
        (.ok (), (FuIOChannel.mk (List.replicate 9 (.byte 0xFA)) [] [] 0).acked
          (List.replicate (if false then 2 else 1) ps2.edpAuxSetScaling1To1 ++
          [ps2.edpAuxSetResolution, (0x7F >>> 6) &&& 3, ps2.edpAuxSetResolution, (0x7F >>> 4) &&& 3,
           ps2.edpAuxSetResolution, (0x7F >>> 2) &&& 3, ps2.edpAuxSetResolution, 0x7F &&& 3])) ∧
      (0x7F >>> 6) &&& 3 < 4 ∧ (0x7F >>> 4) &&& 3 < 4 ∧ (0x7F >>> 2) &&& 3 < 4 ∧ 0x7F &&& 3 < 4 ∧
      ((0x7F >>> 6) &&& 3) * 64 + ((0x7F >>> 4) &&& 3) * 16 + ((0x7F >>> 2) &&& 3) * 4 + (0x7F &&& 3)
        = 0x7F :=
  C1_set_resolution_slices ps2 (by decide) ⟨List.replicate 9 (.byte 0xFA), [], [], 0⟩ 0x7F false
    (by decide) (by decide)

/-- C2: when every acknowledge read returns the resend status, `WriteByte`
hands the same byte `b` to the raw write exactly three times, makes exactly
three raw (acknowledge) reads and fails with the plain "failed" error. -/
theorem C2_write_byte_all_resend (K : Ps2Codes) (hK : K.WF) (ch : FuIOChannel) (b t : Nat)
    (hb : b < 256) (hresend : ch.rx.take 3 = List.replicate 3 (RawRead.byte K.edpsResend))
    (htx : TxOk ch) :
    WriteByte K ch b t =
      (.error ⟨.FAILED, "failed"⟩,
        ⟨ch.rx.drop 3, ch.tx.drop 3, ch.written ++ [b, b, b], ch.reads + 3⟩) := by
  unfold WriteByte
  rw [WriteByte_loop_resend hK _ t 3 ch hresend htx, Nat.mod_eq_of_lt hb]
  rfl

/-- An instance of C2: byte `0x42` on a transport that answers resend for ever
(five scripted answers are enough to see that only three are used). -/
theorem C2_write_byte_all_resend_witness :
    WriteByte ps2 ⟨List.replicate 5 (.byte 0xFE), [], [], 0⟩ 0x42 50 =
      (.error ⟨.FAILED, "failed"⟩,
        ⟨List.replicate 2 (.byte 0xFE), [], [0x42, 0x42, 0x42], 3⟩) :=
  C2_write_byte_all_resend ps2 (by decide) ⟨List.replicate 5 (.byte 0xFE), [], [], 0⟩ 0x42 50
    (by decide) (by decide) (by decide)

theorem Ps2Codes.WF.backdoor_lt {K : Ps2Codes} (h : K.WF) : K.edpAuxFullRMIBackDoor < 256 := h.1

theorem Ps2Codes.WF.scaling21_lt {K : Ps2Codes} (h : K.WF) : K.edpAuxSetScaling2To1 < 256 :=
  h.2.2.1

theorem Ps2Codes.WF.status_lt {K : Ps2Codes} (h : K.WF) : K.edpAuxStatusRequest < 256 :=
  h.2.2.2.2.1

theorem Ps2Codes.WF.rate_lt {K : Ps2Codes} (h : K.WF) : K.edpAuxSetSampleRate < 256 :=
  h.2.2.2.2.2.1

theorem Ps2Codes.WF.disable_lt {K : Ps2Codes} (h : K.WF) : K.edpAuxDisable < 256 :=
  h.2.2.2.2.2.2.1

theorem Ps2Codes.WF.reset_lt {K : Ps2Codes} (h : K.WF) : K.edpAuxReset < 256 :=
  h.2.2.2.2.2.2.2.1

theorem Ps2Codes.WF.mode_lt {K : Ps2Codes} (h : K.WF) : K.essrSetModeByte2 < 256 :=
  h.2.2.2.2.2.2.2.2.1

/-- Two acknowledged writes in a row. -/
theorem WriteByte_acked_after {K : Ps2Codes} (hK : K.WF) {n : Nat} {ch : FuIOChannel}
    (bs : List Nat) (h : Acks K (bs.length + (n + 1)) ch) (b t : Nat) :
    WriteByte K (ch.acked bs) b t = (.ok (), ch.acked (bs ++ [b % 256])) := by
  rw [WriteByte_acked hK (Acks.acked bs h), acked_acked]

theorem sample_rate_sequence_acked {K : Ps2Codes} (hK : K.WF) {n : Nat} {ch : FuIOChannel}
    {param arg : Nat} (hp : param < 256) (ha : arg < 256) (h : Acks K (11 + n) ch) :
    fu_synaptics_rmi_ps2_device_sample_rate_sequence K ch param arg false =
      (.ok (), ch.acked [K.edpAuxSetScaling1To1,
        K.edpAuxSetResolution, (arg >>> 6) &&& 3, K.edpAuxSetResolution, (arg >>> 4) &&& 3,
        K.edpAuxSetResolution, (arg >>> 2) &&& 3, K.edpAuxSetResolution, arg &&& 3,
        K.edpAuxSetSampleRate, param]) := by
  unfold fu_synaptics_rmi_ps2_device_sample_rate_sequence
  rw [sample_rate_loop]
  have h9 : Acks K ((if false then 2 else 1) + 8) ch := h.mono (by simp; omega)
  simp only [Nat.lt_irrefl, if_false]
  rw [set_resolution_sequence_acked hK ch arg false ha h9]
  simp only [Bool.false_eq_true, if_false, List.replicate_one, List.singleton_append]
  rw [WriteByte_acked_after hK (n := n + 1) _ (h.mono (by simp only [List.length_cons, List.length_nil]; omega))]
  simp only []
  rw [WriteByte_acked_after hK (n := n) _ (h.mono (by simp only [List.length_cons, List.length_nil, List.length_append]; omega))]
  simp [Nat.mod_eq_of_lt hK.rate_lt, Nat.mod_eq_of_lt hp]

theorem enable_rmi_backdoor_acked {K : Ps2Codes} (hK : K.WF) {n : Nat} {ch : FuIOChannel}
    (h : Acks K (12 + n) ch) :
    fu_synaptics_rmi_ps2_device_enable_rmi_backdoor K ch =
      (.ok (), ch.acked (enable_backdoor_bytes K)) := by
  unfold fu_synaptics_rmi_ps2_device_enable_rmi_backdoor
  have h1 : Acks K ((11 + n) + 1) ch := by
    have : 12 + n = (11 + n) + 1 := by omega
    rwa [this] at h
  rw [WriteByte_acked_lt hK h1 hK.disable_lt]
  have h2 : Acks K (11 + n) (ch.acked [K.edpAuxDisable]) :=
    Acks.acked [K.edpAuxDisable] (by simpa [Nat.add_comm] using h1)
  simp only [sample_rate_sequence_acked hK hK.mode_lt hK.backdoor_lt h2, acked_acked]
  rfl

theorem backdoor_guard_acked {K : Ps2Codes} (hK : K.WF) {n : Nat}
    (self : FuSynapticsRmiPs2Device)
    (h : Acks K ((backdoor_bytes K self).length + n) self.io_channel) :
    backdoor_guard K self =
      (.ok (), { self with io_channel := self.io_channel.acked (backdoor_bytes K self) }) := by
  unfold backdoor_guard backdoor_bytes
  by_cases hb : self.inRMIBackdoor = true
  · obtain ⟨c, p, b, f⟩ := self
    simp only at hb
    subst hb
    simp [acked_nil]
  · have h' : Acks K (12 + n) self.io_channel := by
      simpa [backdoor_bytes, hb, enable_backdoor_bytes] using h
    simp [hb, enable_rmi_backdoor_acked hK h']

theorem read_command_acked {K : Ps2Codes} (hK : K.WF) {n : Nat} {ch : FuIOChannel}
    (bs : List Nat) (addr : Nat) (h : Acks K (bs.length + (4 + n)) ch) :
    read_command K (ch.acked bs) addr =
      (.ok (), ch.acked (bs ++
        [K.edpAuxSetScaling2To1, K.edpAuxSetSampleRate, addr % 256, K.edpAuxStatusRequest])) := by
  unfold read_command
  rw [WriteByte_acked_after hK (n := n + 3) bs (h.mono (by omega))]
  simp only []
  rw [WriteByte_acked_after hK (n := n + 2) _
    (h.mono (by simp only [List.length_cons, List.length_nil, List.length_append]; omega))]
  simp only []
  rw [WriteByte_acked_after hK (n := n + 1) _
    (h.mono (by simp only [List.length_cons, List.length_nil, List.length_append]; omega))]
  simp only []
  rw [WriteByte_acked_after hK (n := n) _
    (h.mono (by simp only [List.length_cons, List.length_nil, List.length_append]; omega))]
  simp [Nat.mod_eq_of_lt hK.scaling21_lt, Nat.mod_eq_of_lt hK.rate_lt,
    Nat.mod_eq_of_lt hK.status_lt]

theorem low_byte_acc (r0 r1 r2 : Nat) (h0 : r0 < 256) :
    ((((0 ||| r0 <<< (8 * 0)) % 2 ^ 32 ||| r1 <<< (8 * 1)) % 2 ^ 32 ||| r2 <<< (8 * 2)) % 2 ^ 32)
      % 256 = r0 := by
  apply Nat.eq_of_testBit_eq
  intro j
  rw [show (256 : Nat) = 2 ^ 8 from rfl]
  simp only [Nat.testBit_mod_two_pow, Nat.testBit_or, Nat.testBit_shiftLeft, Nat.zero_testBit,
    Nat.mul_zero, Nat.mul_one, Nat.sub_zero, Nat.zero_le, decide_True, Bool.true_and,
    Bool.false_or]
  by_cases hj : j < 8
  · have a : j < 32 := by omega
    have b : ¬ j ≥ 8 := by omega
    have c : ¬ j ≥ 8 * 2 := by omega
    simp [hj, a, b, c]
  · have : r0.testBit j = false :=
      Nat.testBit_lt_two_pow
        (Nat.lt_of_lt_of_le h0 (Nat.pow_le_pow_right Nat.zero_lt_two (Nat.le_of_not_lt hj)))
    simp [hj, this]

theorem low_byte (r0 r1 r2 : Nat) (h0 : r0 < 256) :
    (r0 ||| r1 <<< 8 ||| r2 <<< 16) % 256 = r0 := by
  apply Nat.eq_of_testBit_eq
  intro j
  rw [show (256 : Nat) = 2 ^ 8 from rfl]
  simp only [Nat.testBit_mod_two_pow, Nat.testBit_or, Nat.testBit_shiftLeft]
  by_cases hj : j < 8
  · have b : ¬ j ≥ 8 := by omega
    have c : ¬ j ≥ 16 := by omega
    simp [hj, b, c]
  · have : r0.testBit j = false :=
      Nat.testBit_lt_two_pow
        (Nat.lt_of_lt_of_le h0 (Nat.pow_le_pow_right Nat.zero_lt_two (Nat.le_of_not_lt hj)))
    simp [hj, this]

theorem read_response_loop_three (ch : FuIOChannel) (r0 r1 r2 : Nat) (rest : List RawRead)
    (h : ch.rx = .byte r0 :: .byte r1 :: .byte r2 :: rest)
    (h0 : r0 < 256) (h1 : r1 < 256) (h2 : r2 < 256) :
    read_response_loop 3 0 0 ch =
      (.ok ((((0 ||| r0 <<< (8 * 0)) % 2 ^ 32 ||| r1 <<< (8 * 1)) % 2 ^ 32 ||| r2 <<< (8 * 2))
          % 2 ^ 32),
        ⟨rest, ch.tx, ch.written, ch.reads + 3⟩) := by
  simp only [read_response_loop, ReadByte]
  rw [read_raw_byte ch r0 0 _ h]
  simp only []
  rw [read_raw_byte _ r1 0 (.byte r2 :: rest) rfl]
  simp only []
  rw [read_raw_byte _ r2 0 rest rfl]
  simp [Nat.mod_eq_of_lt h0, Nat.mod_eq_of_lt h1, Nat.mod_eq_of_lt h2, Nat.add_assoc]

/-- C3: once the command bytes of the call are acknowledged, `ReadRMIRegister`
succeeds for every three raw bytes `r0`, `r1`, `r2` that follow, takes exactly
these three bytes from the transport and returns `r0`, which is the low byte
of `r0 | r1 << 8 | r2 << 16` whatever `r1` and `r2` are. -/
theorem C3_read_register_low_byte (K : Ps2Codes) (hK : K.WF) (self : FuSynapticsRmiPs2Device)
    (addr v r0 r1 r2 : Nat) (rest : List RawRead)
    (h0 : r0 < 256) (h1 : r1 < 256) (h2 : r2 < 256)
    (hack : Acks K ((backdoor_bytes K self).length + 4) self.io_channel)
    (hrx : self.io_channel.rx.drop ((backdoor_bytes K self).length + 4) =
      .byte r0 :: .byte r1 :: .byte r2 :: rest) :
    ReadRMIRegister K self addr (some v) =
        (.ok r0, { self with io_channel :=
          ⟨rest, self.io_channel.tx.drop ((backdoor_bytes K self).length + 4),
            self.io_channel.written ++ backdoor_bytes K self ++
              [K.edpAuxSetScaling2To1, K.edpAuxSetSampleRate, addr % 256, K.edpAuxStatusRequest],
            self.io_channel.reads + ((backdoor_bytes K self).length + 4) + 3⟩ }) ∧
      (r0 ||| r1 <<< 8 ||| r2 <<< 16) % 256 = r0 := by
  refine ⟨?_, low_byte r0 r1 r2 h0⟩
  unfold ReadRMIRegister
  simp only []
  rw [backdoor_guard_acked hK (n := 4) self hack]
  simp only []
  rw [read_command_acked hK (n := 0) _ addr (by simpa using hack)]
  simp only []
  rw [read_response_loop_three _ r0 r1 r2 rest (by simpa [FuIOChannel.acked] using hrx) h0 h1 h2]
  simp only []
  rw [low_byte_acc r0 r1 r2 h0]
  simp [FuIOChannel.acked]

/-- An instance of C3: the raw bytes `0x7A 0xFF 0xFF` give `0x7A`. -/
theorem C3_read_register_low_byte_witness :
    ReadRMIRegister ps2
        ⟨⟨List.replicate 4 (.byte 0xFA) ++ [.byte 0x7A, .byte 0xFF, .byte 0xFF], [], [], 0⟩,
          0, true, false⟩ 0x10 (some 0) =
        (.ok 0x7A, ⟨⟨[], [], [0xE7, 0xF3, 0x10, 0xE9], 7⟩, 0, true, false⟩) ∧
      (0x7A ||| 0xFF <<< 8 ||| 0xFF <<< 16) % 256 = 0x7A :=
  C3_read_register_low_byte ps2 (by decide)
    ⟨⟨List.replicate 4 (.byte 0xFA) ++ [.byte 0x7A, .byte 0xFF, .byte 0xFF], [], [], 0⟩,
      0, true, false⟩ 0x10 0 0x7A 0xFF 0xFF [] (by decide) (by decide) (by decide)
    (by decide) (by decide)

theorem read_packet_loop_bytes :
    ∀ (raws pre suf : List Nat) (ch : FuIOChannel) (rest : List RawRead),
      ch.rx = raws.map RawRead.byte ++ rest → (∀ r ∈ raws, r < 256) →
      raws.length ≤ suf.length →
      read_packet_loop raws.length pre.length (pre ++ suf) ch =
        (.ok (pre ++ raws ++ suf.drop raws.length),
          ⟨rest, ch.tx, ch.written, ch.reads + raws.length⟩) := by
  intro raws
  induction raws with
  | nil =>
    intro pre suf ch rest h _ _
    obtain ⟨rx, tx, w, n⟩ := ch
    simp only [List.map_nil, List.nil_append] at h
    subst h
    simp [read_packet_loop]
  | cons r raws ih =>
    intro pre suf ch rest h hr hl
    rcases suf with _ | ⟨s, suf⟩
    · simp at hl
    · have hr0 : r < 256 := hr r (by simp)
      rw [List.length_cons, read_packet_loop, ReadByte,
        read_raw_byte ch r 0 (raws.map RawRead.byte ++ rest) (by simpa using h)]
      simp only [Nat.mod_eq_of_lt hr0]
      have e : (pre ++ s :: suf).set pre.length r = (pre ++ [r]) ++ suf := by
        rw [List.set_append_right _ _ (Nat.le_refl _)]
        simp
      have hl' : raws.length ≤ suf.length := by simpa using hl
      have := ih (pre ++ [r]) suf
        { ch with rx := raws.map RawRead.byte ++ rest, reads := ch.reads + 1 } rest rfl
        (fun x hx => hr x (by simp [hx])) hl'
      rw [e]
      simp only [List.length_append, List.length_cons, List.length_nil, Nat.zero_add] at this
      rw [this]
      simp [Nat.add_assoc, Nat.add_comm 1]

/-- C4: once the command bytes of the call are acknowledged,
`ReadRMIPacketRegister` with `len = n` succeeds for every list of `n` raw
bytes that follows and stores it verbatim, in read order, in the first `n`
places of the caller's array, leaving the places after them alone; an array
of exactly `n` places ends up equal to the list of raw bytes. -/
theorem C4_read_packet_verbatim (K : Ps2Codes) (hK : K.WF) (self : FuSynapticsRmiPs2Device)
    (addr : Nat) (b raws : List Nat) (rest : List RawRead)
    (hraw : ∀ r ∈ raws, r < 256) (hb : raws.length ≤ b.length) (hlen : raws.length < 2 ^ 32)
    (hack : Acks K ((backdoor_bytes K self).length + 4) self.io_channel)
    (hrx : self.io_channel.rx.drop ((backdoor_bytes K self).length + 4) =
      raws.map RawRead.byte ++ rest) :
    ReadRMIPacketRegister K self addr (some b) raws.length =
        (.ok (raws ++ b.drop raws.length), { self with io_channel :=
          ⟨rest, self.io_channel.tx.drop ((backdoor_bytes K self).length + 4),
            self.io_channel.written ++ backdoor_bytes K self ++
              [K.edpAuxSetScaling2To1, K.edpAuxSetSampleRate, addr % 256, K.edpAuxStatusRequest],
            self.io_channel.reads + ((backdoor_bytes K self).length + 4) + raws.length⟩ }) ∧
      (b.length = raws.length → raws ++ b.drop raws.length = raws) := by
  refine ⟨?_, fun e => by simp [← e]⟩
  unfold ReadRMIPacketRegister
  simp only []
  rw [backdoor_guard_acked hK (n := 4) self hack]
  simp only []
  rw [read_command_acked hK (n := 0) _ addr (by simpa using hack)]
  simp only [Nat.mod_eq_of_lt hlen]
  have := read_packet_loop_bytes raws [] b
    (self.io_channel.acked (backdoor_bytes K self ++
      [K.edpAuxSetScaling2To1, K.edpAuxSetSampleRate, addr % 256, K.edpAuxStatusRequest]))
    rest (by simpa [FuIOChannel.acked] using hrx) hraw hb
  simp only [List.length_nil, List.nil_append] at this
  rw [this]
  simp [FuIOChannel.acked]

/-- An instance of C4: `len = 4`, the raw bytes 1, 2, 3, 4. -/
theorem C4_read_packet_verbatim_witness :
    ReadRMIPacketRegister ps2
        ⟨⟨List.replicate 4 (.byte 0xFA) ++ [.byte 1, .byte 2, .byte 3, .byte 4], [], [], 0⟩,
          0, true, false⟩ 0x10 (some [0, 0, 0, 0]) 4 =
      (.ok [1, 2, 3, 4], ⟨⟨[], [], [0xE7, 0xF3, 0x10, 0xE9], 8⟩, 0, true, false⟩) :=
  (C4_read_packet_verbatim ps2 (by decide)
    ⟨⟨List.replicate 4 (.byte 0xFA) ++ [.byte 1, .byte 2, .byte 3, .byte 4], [], [], 0⟩,
      0, true, false⟩ 0x10 [0, 0, 0, 0] [1, 2, 3, 4] [] (by decide) (by decide) (by decide)
    (by decide) (by decide)).1

/-- C5: for every page `p` (a byte) and every state and transport, a
`SetRMIPage (p)` that follows a successful `SetRMIPage (p)` succeeds and
returns the state it was given: no byte written, nothing read, link state
unchanged.  More generally `SetRMIPage (p)` does nothing and succeeds
whenever `currentPage == p`. -/
theorem C5_select_page_idempotent (K : Ps2Codes) (self s1 : FuSynapticsRmiPs2Device) (p : Nat)
    (hp : p < 256) (hok : SetRMIPage K self p = (.ok (), s1)) :
    s1.currentPage = p ∧ SetRMIPage K s1 p = (.ok (), s1) ∧
      ∀ s : FuSynapticsRmiPs2Device, s.currentPage = p → SetRMIPage K s p = (.ok (), s) := by
  have hnoop : ∀ s : FuSynapticsRmiPs2Device, s.currentPage = p →
      SetRMIPage K s p = (.ok (), s) := by
    intro s hs
    simp [SetRMIPage, hs]
  have hcur : s1.currentPage = p := by
    unfold SetRMIPage at hok
    by_cases hc : self.currentPage = p
    · rw [if_pos hc] at hok
      have : self = s1 := (Prod.mk.inj hok).2
      rw [← this]; exact hc
    · rw [if_neg hc] at hok
      rcases hw : WriteRMIRegister K self 0xFF [p % 256] 1 20 with ⟨r, s2⟩
      rw [hw] at hok
      rcases r with e | u
      · simp at hok
      · simp only at hok
        have : { s2 with currentPage := p % 256 } = s1 := (Prod.mk.inj hok).2
        rw [← this]
        exact Nat.mod_eq_of_lt hp
  exact ⟨hcur, hnoop s1 hcur, hnoop⟩

/-- An instance of C5: page 1 selected from page 0 in back-door mode on an
acknowledging transport, then selected again. -/
theorem C5_select_page_idempotent_witness :
    SetRMIPage ps2 ⟨⟨List.replicate 5 (.byte 0xFA), [], [], 0⟩, 0, true, false⟩ 1 =
        (.ok (), ⟨⟨[], [], [0xE7, 0xF3, 0xFF, 0xF3, 0x01], 5⟩, 1, true, false⟩) ∧
      SetRMIPage ps2 ⟨⟨[], [], [0xE7, 0xF3, 0xFF, 0xF3, 0x01], 5⟩, 1, true, false⟩ 1 =
        (.ok (), ⟨⟨[], [], [0xE7, 0xF3, 0xFF, 0xF3, 0x01], 5⟩, 1, true, false⟩) :=
  ⟨by decide,
    (C5_select_page_idempotent ps2
      ⟨⟨List.replicate 5 (.byte 0xFA), [], [], 0⟩, 0, true, false⟩
      ⟨⟨[], [], [0xE7, 0xF3, 0xFF, 0xF3, 0x01], 5⟩, 1, true, false⟩ 1 (by decide) (by decide)).2.1⟩

theorem write_data_loop_acked {K : Ps2Codes} (hK : K.WF) (buf : List Nat) (t m : Nat) :
    ∀ (n i : Nat) (ch : FuIOChannel) (bs : List Nat), i + n ≤ buf.length →
      Acks K (bs.length + (2 * n + m)) ch →
      write_data_loop K buf t n i (ch.acked bs) =
        (.ok (), ch.acked (bs ++
          ((buf.drop i).take n).flatMap fun d => [K.edpAuxSetSampleRate, d % 256])) := by
  intro n
  induction n with
  | zero => intro i ch bs _ _; simp [write_data_loop]
  | succ n ih =>
    intro i ch bs hi h
    have hlt : i < buf.length := by omega
    rw [write_data_loop, WriteByte_acked_after hK (n := 2 * n + m + 1) bs (h.mono (by omega))]
    simp only []
    rw [WriteByte_acked_after hK (n := 2 * n + m) _
      (h.mono (by simp only [List.length_cons, List.length_nil, List.length_append]; omega))]
    simp only []
    rw [ih (i + 1) ch _ (by omega)
      (h.mono (by simp only [List.length_cons, List.length_nil, List.length_append]; omega))]
    have e : (buf.drop i).take (n + 1) = buf[i] :: (buf.drop (i + 1)).take n := by
      rw [List.drop_eq_getElem_cons hlt, List.take_succ_cons]
    rw [e]
    simp [List.getD_eq_getElem _ _ hlt, Nat.mod_eq_of_lt hK.rate_lt, List.flatMap_cons,
      List.getElem?_eq_getElem hlt]

theorem WriteRMIRegister_acked {K : Ps2Codes} (hK : K.WF) (self : FuSynapticsRmiPs2Device)
    (addr : Nat) (buf : List Nat) (len t : Nat) (hlen : len ≤ buf.length) (h8 : len < 256)
    (h : Acks K ((backdoor_bytes K self).length + (3 + 2 * len)) self.io_channel) :
    WriteRMIRegister K self addr buf len t =
      (.ok (), { self with io_channel := self.io_channel.acked (backdoor_bytes K self ++
        [K.edpAuxSetScaling2To1, K.edpAuxSetSampleRate, addr % 256] ++
        (buf.take len).flatMap fun d => [K.edpAuxSetSampleRate, d % 256]) }) := by
  unfold WriteRMIRegister
  rw [backdoor_guard_acked hK (n := 3 + 2 * len) self h]
  simp only []
  rw [WriteByte_acked_after hK (n := 2 + 2 * len) _ (h.mono (by omega))]
  simp only []
  rw [WriteByte_acked_after hK (n := 1 + 2 * len) _
    (h.mono (by simp only [List.length_cons, List.length_nil, List.length_append]; omega))]
  simp only []
  rw [WriteByte_acked_after hK (n := 2 * len) _
    (h.mono (by simp only [List.length_cons, List.length_nil, List.length_append]; omega))]
  simp only [Nat.mod_eq_of_lt h8]
  rw [write_data_loop_acked hK buf t 0 len 0 _ _ (by omega)
    (h.mono (by simp only [List.length_cons, List.length_nil, List.length_append]; omega))]
  simp [Nat.mod_eq_of_lt hK.scaling21_lt, Nat.mod_eq_of_lt hK.rate_lt]

theorem read_raw_written (ch : FuIOChannel) (t : Nat) :
    (fu_io_channel_read_raw ch t).2.written = ch.written := by
  unfold fu_io_channel_read_raw
  rcases ch.rx with _ | ⟨x, r⟩
  · rfl
  · cases x <;> rfl

theorem read_response_loop_written :
    ∀ (n i resp : Nat) (ch : FuIOChannel),
      (read_response_loop n i resp ch).2.written = ch.written := by
  intro n
  induction n with
  | zero => intro i resp ch; rfl
  | succ n ih =>
    intro i resp ch
    rw [read_response_loop, ReadByte]
    have hw := read_raw_written ch 0
    rcases hr : fu_io_channel_read_raw ch 0 with ⟨r, ch1⟩
    rw [hr] at hw
    rcases r with e | b
    · exact hw
    · simp only []
      rw [ih]
      exact hw

theorem ReadRMIRegister_written {K : Ps2Codes} (hK : K.WF) (self : FuSynapticsRmiPs2Device)
    (addr v : Nat) (h : Acks K ((backdoor_bytes K self).length + 4) self.io_channel) :
    (ReadRMIRegister K self addr (some v)).2.io_channel.written =
      self.io_channel.written ++ backdoor_bytes K self ++
        [K.edpAuxSetScaling2To1, K.edpAuxSetSampleRate, addr % 256, K.edpAuxStatusRequest] := by
  unfold ReadRMIRegister
  simp only []
  rw [backdoor_guard_acked hK (n := 4) self h]
  simp only []
  rw [read_command_acked hK (n := 0) _ addr (by simpa using h)]
  simp only []
  have hw := read_response_loop_written 3 0 0 (self.io_channel.acked (backdoor_bytes K self ++
    [K.edpAuxSetScaling2To1, K.edpAuxSetSampleRate, addr % 256, K.edpAuxStatusRequest]))
  rcases hr : read_response_loop 3 0 0 (self.io_channel.acked (backdoor_bytes K self ++
    [K.edpAuxSetScaling2To1, K.edpAuxSetSampleRate, addr % 256, K.edpAuxStatusRequest]))
    with ⟨r, ch1⟩
  rw [hr] at hw
  rcases r with e | b <;> simpa [FuIOChannel.acked] using hw

/-- C6: on an acknowledging transport, a `WriteRMIRegister` or
`ReadRMIRegister` call made with the back-door flag clear writes exactly one
enable-backdoor sequence (disable, then the sample-rate sequence of the mode
byte and the back-door argument with `send_e6s = FALSE`), all of it before
the first register command byte (set scaling 2:1); with the flag set the
trace of the call starts with set scaling 2:1.  The enable-backdoor bytes are
what `enable_rmi_backdoor` itself writes on this channel. -/
theorem C6_enable_sequence_before_command (K : Ps2Codes) (hK : K.WF)
    (self : FuSynapticsRmiPs2Device) (addr v : Nat) (data : List Nat) (len t : Nat)
    (hlen : len ≤ data.length) (h8 : len < 256)
    (hack : Acks K ((backdoor_bytes K self).length + (4 + 2 * len)) self.io_channel) :
    (self.inRMIBackdoor = false →
      (WriteRMIRegister K self addr data len t).1 = .ok () ∧
      (WriteRMIRegister K self addr data len t).2.io_channel.written =
        self.io_channel.written ++ enable_backdoor_bytes K ++
          ([K.edpAuxSetScaling2To1, K.edpAuxSetSampleRate, addr % 256] ++
            (data.take len).flatMap fun d => [K.edpAuxSetSampleRate, d % 256]) ∧
      (ReadRMIRegister K self addr (some v)).2.io_channel.written =
        self.io_channel.written ++ enable_backdoor_bytes K ++
          [K.edpAuxSetScaling2To1, K.edpAuxSetSampleRate, addr % 256, K.edpAuxStatusRequest] ∧
      fu_synaptics_rmi_ps2_device_enable_rmi_backdoor K self.io_channel =
        (.ok (), self.io_channel.acked (enable_backdoor_bytes K))) ∧
    (self.inRMIBackdoor = true →
      (WriteRMIRegister K self addr data len t).1 = .ok () ∧
      (WriteRMIRegister K self addr data len t).2.io_channel.written =
        self.io_channel.written ++
          ([K.edpAuxSetScaling2To1, K.edpAuxSetSampleRate, addr % 256] ++
            (data.take len).flatMap fun d => [K.edpAuxSetSampleRate, d % 256]) ∧
      (ReadRMIRegister K self addr (some v)).2.io_channel.written =
        self.io_channel.written ++
          [K.edpAuxSetScaling2To1, K.edpAuxSetSampleRate, addr % 256, K.edpAuxStatusRequest]) := by
  have hw := WriteRMIRegister_acked hK self addr data len t hlen h8 (hack.mono (by omega))
  have hr := ReadRMIRegister_written hK self addr v (hack.mono (by omega))
  constructor
  · intro hb
    have e : backdoor_bytes K self = enable_backdoor_bytes K := by simp [backdoor_bytes, hb]
    rw [e] at hw hr
    refine ⟨by rw [hw], by rw [hw]; simp [FuIOChannel.acked], hr, ?_⟩
    exact enable_rmi_backdoor_acked hK (n := 4 + 2 * len)
      (by simpa [e, enable_backdoor_bytes] using hack)
  · intro hb
    have e : backdoor_bytes K self = [] := by simp [backdoor_bytes, hb]
    rw [e] at hw hr
    exact ⟨by rw [hw], by rw [hw]; simp [FuIOChannel.acked], by simpa using hr⟩

/-- An instance of C6: the same register write with the flag clear (the trace
starts with the twelve enable-backdoor bytes) and with the flag set (the
trace starts with set scaling 2:1, `0xE7`). -/
theorem C6_enable_sequence_before_command_witness :
    (WriteRMIRegister ps2 ⟨⟨List.replicate 18 (.byte 0xFA), [], [], 0⟩, 0, false, false⟩
        0x10 [0x05] 1 20).2.io_channel.written =
      [] ++ enable_backdoor_bytes ps2 ++ ([0xE7, 0xF3, 0x10 % 256] ++
        ([0x05].take 1).flatMap fun d => [ps2.edpAuxSetSampleRate, d % 256]) ∧
    (WriteRMIRegister ps2 ⟨⟨List.replicate 6 (.byte 0xFA), [], [], 0⟩, 0, true, false⟩
        0x10 [0x05] 1 20).2.io_channel.written =
      [] ++ ([0xE7, 0xF3, 0x10 % 256] ++
        ([0x05].take 1).flatMap fun d => [ps2.edpAuxSetSampleRate, d % 256]) :=
  ⟨((C6_enable_sequence_before_command ps2 (by decide)
      ⟨⟨List.replicate 18 (.byte 0xFA), [], [], 0⟩, 0, false, false⟩ 0x10 0 [0x05] 1 20
      (by decide) (by decide) (by decide)).1 rfl).2.1,
   ((C6_enable_sequence_before_command ps2 (by decide)
      ⟨⟨List.replicate 6 (.byte 0xFA), [], [], 0⟩, 0, true, false⟩ 0x10 0 [0x05] 1 20
      (by decide) (by decide) (by decide)).2 rfl).2.1⟩

theorem backdoor_guard_flag (K : Ps2Codes) (self : FuSynapticsRmiPs2Device) :
    (backdoor_guard K self).2.inRMIBackdoor = self.inRMIBackdoor := by
  unfold backdoor_guard
  split
  · rfl
  · split <;> rfl

/-- No register function ever changes the back-door flag: the source reads
`self->inRMIBackdoor` and never assigns it. -/
theorem register_calls_keep_flag (K : Ps2Codes) (self : FuSynapticsRmiPs2Device)
    (addr : Nat) (data : List Nat) (len t : Nat) (v : Option Nat) (b : Option (List Nat)) :
    (WriteRMIRegister K self addr data len t).2.inRMIBackdoor = self.inRMIBackdoor ∧
    (ReadRMIRegister K self addr v).2.inRMIBackdoor = self.inRMIBackdoor ∧
    (ReadRMIPacketRegister K self addr b len).2.inRMIBackdoor = self.inRMIBackdoor := by
  have hg := backdoor_guard_flag K self
  refine ⟨?_, ?_, ?_⟩
  · unfold WriteRMIRegister
    rcases hb : backdoor_guard K self with ⟨r, s1⟩
    rw [hb] at hg
    rcases r with e | u
    · exact hg
    · simp only []
      repeat' split
      all_goals exact hg
  · unfold ReadRMIRegister
    rcases v with _ | v
    · rfl
    · rcases hb : backdoor_guard K self with ⟨r, s1⟩
      rw [hb] at hg
      rcases r with e | u
      · exact hg
      · simp only []
        repeat' split
        all_goals exact hg
  · unfold ReadRMIPacketRegister
    rcases b with _ | b
    · rfl
    · rcases hb : backdoor_guard K self with ⟨r, s1⟩
      rw [hb] at hg
      rcases r with e | u
      · exact hg
      · simp only []
        repeat' split
        all_goals exact hg

/-- C7 (the code departs from the claim): two register writes in a row, flag
clear at the start, every byte acknowledged.  The first call succeeds and
leaves `inRMIBackdoor` false; the second call therefore writes the twelve
enable-backdoor bytes again, so the enable sequence appears twice in the
trace of the two calls. -/
theorem C7_backdoor_flag_never_set :
    WriteRMIRegister ps2 ⟨⟨List.replicate 34 (.byte 0xFA), [], [], 0⟩, 0, false, false⟩
        0x10 [0x05] 1 20 =
      (.ok (), ⟨⟨List.replicate 17 (.byte 0xFA), [],
        enable_backdoor_bytes ps2 ++ [0xE7, 0xF3, 0x10, 0xF3, 0x05], 17⟩, 0, false, false⟩) ∧
    WriteRMIRegister ps2 ⟨⟨List.replicate 17 (.byte 0xFA), [],
        enable_backdoor_bytes ps2 ++ [0xE7, 0xF3, 0x10, 0xF3, 0x05], 17⟩, 0, false, false⟩
        0x10 [0x05] 1 20 =
      (.ok (), ⟨⟨[], [],
        enable_backdoor_bytes ps2 ++ [0xE7, 0xF3, 0x10, 0xF3, 0x05] ++
          (enable_backdoor_bytes ps2 ++ [0xE7, 0xF3, 0x10, 0xF3, 0x05]), 34⟩,
        0, false, false⟩) ∧
    enable_backdoor_bytes ps2 =
      [0xF5, 0xE6, 0xE8, 1, 0xE8, 3, 0xE8, 3, 0xE8, 3, 0xF3, 0x14] := by
  decide

/-- For every address the page that `Write` selects is 0: with page 0 current
the call is the register write to the low byte of the address and nothing
else. -/
theorem Write_skips_page_select (K : Ps2Codes) (self : FuSynapticsRmiPs2Device)
    (addr : Nat) (data : List Nat) (len t : Nat) (hp : self.currentPage = 0) :
    Write K self addr data len t =
      match WriteRMIRegister K self ((addr % 256) &&& 0x00FF) data (len % 256) t with
      | (.error e, s2) => (.error (g_prefix_error e "failed to write register %x:"), s2)
      | (.ok _, s2) => (.ok (), s2) := by
  have hshift : (addr % 256) >>> 8 = 0 := by
    rw [Nat.shiftRight_eq_div_pow]
    omega
  simp [Write, SetRMIPage, hshift, hp]

/-- C8 (the code departs from the claim): `Write (0x0140, [0x05])` with
`currentPage == 0`, back-door flag set, every byte acknowledged.  The address
parameter is a `guint8`, so the call sees `0x40` and the page `0x40 >> 8 = 0`:
no page-control write happens, the five bytes of the register write to offset
`0x40` are the whole trace, and `currentPage` is still 0.  `Read` treats the
same address the same way. -/
theorem C8_write_address_is_a_byte :
    Write ps2 ⟨⟨List.replicate 10 (.byte 0xFA), [], [], 0⟩, 0, true, false⟩
        0x0140 [0x05] 1 20 =
      (.ok (), ⟨⟨List.replicate 5 (.byte 0xFA), [], [0xE7, 0xF3, 0x40, 0xF3, 0x05], 5⟩,
        0, true, false⟩) ∧
    Read ps2 ⟨⟨List.replicate 4 (.byte 0xFA) ++ [.byte 0x7A, .byte 0, .byte 0], [], [], 0⟩,
        0, true, false⟩ 0x0140 (some [0]) 1 false =
      (.ok (some [0x7A]), ⟨⟨[], [], [0xE7, 0xF3, 0x40, 0xE9], 7⟩, 0, true, false⟩) := by
  decide

theorem read_raw_fail (ch : FuIOChannel) (e : GError) (t : Nat) (r : List RawRead)
    (h : ch.rx = .fail e :: r) :
    fu_io_channel_read_raw ch t = (.error e, { ch with rx := r, reads := ch.reads + 1 }) := by
  unfold fu_io_channel_read_raw
  rw [h]

theorem drain_loop_queue :
    ∀ (pre : List Nat) (n : Nat) (ch : FuIOChannel) (e : GError) (rest : List RawRead),
      pre.length < n → ch.rx = pre.map RawRead.byte ++ .fail e :: rest →
      drain_loop n ch = ⟨rest, ch.tx, ch.written, ch.reads + pre.length + 1⟩ := by
  intro pre
  induction pre with
  | nil =>
    intro n ch e rest hn h
    rcases n with _ | n
    · simp at hn
    · rw [drain_loop, ReadByte, read_raw_fail ch e 20 rest (by simpa using h)]
      simp
  | cons p pre ih =>
    intro n ch e rest hn h
    rcases n with _ | n
    · simp at hn
    · rw [drain_loop, ReadByte,
        read_raw_byte ch p 20 (pre.map RawRead.byte ++ .fail e :: rest) (by simpa using h)]
      simp only []
      rw [ih n _ e rest (by simpa using hn) rfl]
      simp [Nat.add_assoc, Nat.add_comm 1]

/-- The state of the channel when `open` has emptied the queue (`k` bytes and
the read that failed), had the reset acknowledged and read the two bytes of
the signature. -/
theorem open_after_signature {K : Ps2Codes} (hK : K.WF) (ch : FuIOChannel) (pre : List Nat)
    (e : GError) (b0 b1 : Nat) (rest : List RawRead) (hpre : pre.length < 0xffff)
    (hrx : ch.rx = pre.map RawRead.byte ++
      .fail e :: .byte K.edpsAcknowledge :: .byte b0 :: .byte b1 :: rest)
    (htx : TxOk ch) :
    WriteByte K (drain_loop 0xffff ch) K.edpAuxReset 600 =
      (.ok (), ⟨.byte b0 :: .byte b1 :: rest, ch.tx.drop 1, ch.written ++ [K.edpAuxReset],
        ch.reads + pre.length + 2⟩) := by
  rw [drain_loop_queue pre 0xffff ch e _ hpre hrx]
  have hA : Acks K (0 + 1) (⟨.byte K.edpsAcknowledge :: .byte b0 :: .byte b1 :: rest, ch.tx,
      ch.written, ch.reads + pre.length + 1⟩ : FuIOChannel) := ⟨by simp, htx⟩
  rw [WriteByte_acked_lt hK hA hK.reset_lt]
  simp [FuIOChannel.acked]

/-- C9: opening in serio_raw mode.  After the queue is emptied and the reset
is acknowledged, `open` reads exactly two bytes `b0`, `b1`.  It can succeed
only if they are `0xAA 0x00`; with `0xAA 0x00` and the disable byte
acknowledged it succeeds; with any other pair it fails with the
"failed to read 0xAA00, got ..." error, having written the reset byte only. -/
theorem C9_open_signature (K : Ps2Codes) (hK : K.WF) (self : FuSynapticsRmiPs2Device)
    (ch : FuIOChannel) (pre : List Nat) (e : GError) (b0 b1 : Nat) (rest : List RawRead)
    (hboot : self.is_bootloader = true) (hpre : pre.length < 0xffff)
    (h0 : b0 < 256) (h1 : b1 < 256)
    (hrx : ch.rx = pre.map RawRead.byte ++
      .fail e :: .byte K.edpsAcknowledge :: .byte b0 :: .byte b1 :: rest)
    (htx : TxOk ch) :
    ((fu_synaptics_rmi_ps2_device_open K self ch).1 = .ok () → b0 = 0xAA ∧ b1 = 0x00) ∧
    (¬ (b0 = 0xAA ∧ b1 = 0x00) →
      fu_synaptics_rmi_ps2_device_open K self ch =
        (.error ⟨.FAILED, "failed to read 0xAA00, got 0x%02X%02X: "⟩,
          { self with io_channel :=
            ⟨rest, ch.tx.drop 1, ch.written ++ [K.edpAuxReset], ch.reads + pre.length + 4⟩ })) ∧
    (b0 = 0xAA → b1 = 0x00 → rest.head? = some (.byte K.edpsAcknowledge) →
      fu_synaptics_rmi_ps2_device_open K self ch =
        (.ok (), { self with io_channel :=
          ⟨rest.tail, ch.tx.drop 2, ch.written ++ [K.edpAuxReset, K.edpAuxDisable],
            ch.reads + pre.length + 5⟩ })) := by
  have hopen : fu_synaptics_rmi_ps2_device_open K self ch =
      if b0 ≠ 0xAA ∨ b1 ≠ 0x00 then
        (.error ⟨.FAILED, "failed to read 0xAA00, got 0x%02X%02X: "⟩,
          { self with io_channel :=
            ⟨rest, ch.tx.drop 1, ch.written ++ [K.edpAuxReset], ch.reads + pre.length + 4⟩ })
      else
        match WriteByte K ⟨rest, ch.tx.drop 1, ch.written ++ [K.edpAuxReset],
            ch.reads + pre.length + 4⟩ K.edpAuxDisable 50 with
        | (.error e, ch4) =>
          (.error (g_prefix_error e "failed to disable stream mode: "),
            { self with io_channel := ch4 })
        | (.ok _, ch4) => (.ok (), { self with io_channel := ch4 }) := by
    unfold fu_synaptics_rmi_ps2_device_open
    rw [if_pos hboot]
    simp only []
    rw [open_after_signature hK ch pre e b0 b1 rest hpre hrx htx]
    simp only [ReadByte]
    rw [read_raw_byte _ b0 500 (.byte b1 :: rest) rfl]
    simp only []
    rw [read_raw_byte _ b1 500 rest rfl]
    simp only [Nat.mod_eq_of_lt h0, Nat.mod_eq_of_lt h1, Nat.add_assoc]
  refine ⟨?_, ?_, ?_⟩
  · intro hok
    rw [hopen] at hok
    by_cases hs : b0 ≠ 0xAA ∨ b1 ≠ 0x00
    · rw [if_pos hs] at hok
      simp at hok
    · have hs' := not_or.mp hs
      exact ⟨not_not.mp hs'.1, not_not.mp hs'.2⟩
  · intro hs
    rw [hopen, if_pos (by
      by_cases hb : b0 = 0xAA
      · exact Or.inr (fun h => hs ⟨hb, h⟩)
      · exact Or.inl hb)]
  · intro hb0 hb1 hrest
    rw [hopen, if_neg (by simp [hb0, hb1])]
    rcases rest with _ | ⟨x, rest⟩
    · simp at hrest
    · simp only [List.head?_cons, Option.some.injEq] at hrest
      subst hrest
      have hA : Acks K (0 + 1) (⟨.byte K.edpsAcknowledge :: rest, ch.tx.drop 1,
          ch.written ++ [K.edpAuxReset], ch.reads + pre.length + 4⟩ : FuIOChannel) :=
        ⟨by simp, fun w hw => htx w (List.mem_of_mem_drop hw)⟩
      rw [WriteByte_acked_lt hK hA hK.disable_lt]
      simp [FuIOChannel.acked, Nat.add_assoc]

/-- An instance of C9: two stale bytes in the queue, then `0xAA 0x00` after the
reset (success) and `0xAA 0x01` after the reset (signature mismatch, only the
reset byte written). -/
theorem C9_open_signature_witness :
    fu_synaptics_rmi_ps2_device_open ps2 ⟨⟨[], [], [], 0⟩, 0, false, true⟩
        ⟨[.byte 3, .byte 4, .fail timedOut, .byte 0xFA, .byte 0xAA, .byte 0x00, .byte 0xFA],
          [], [], 0⟩ =
      (.ok (), ⟨⟨[], [], [0xFF, 0xF5], 7⟩, 0, false, true⟩) ∧
    fu_synaptics_rmi_ps2_device_open ps2 ⟨⟨[], [], [], 0⟩, 0, false, true⟩
        ⟨[.byte 3, .byte 4, .fail timedOut, .byte 0xFA, .byte 0xAA, .byte 0x01, .byte 0xFA],
          [], [], 0⟩ =
      (.error ⟨.FAILED, "failed to read 0xAA00, got 0x%02X%02X: "⟩,
        ⟨⟨[.byte 0xFA], [], [0xFF], 6⟩, 0, false, true⟩) :=
  ⟨(C9_open_signature ps2 (by decide) ⟨⟨[], [], [], 0⟩, 0, false, true⟩
      ⟨[.byte 3, .byte 4, .fail timedOut, .byte 0xFA, .byte 0xAA, .byte 0x00, .byte 0xFA],
        [], [], 0⟩ [3, 4] timedOut 0xAA 0x00 [.byte 0xFA]
      rfl (by decide) (by decide) (by decide) rfl (by decide)).2.2 rfl rfl rfl,
   (C9_open_signature ps2 (by decide) ⟨⟨[], [], [], 0⟩, 0, false, true⟩
      ⟨[.byte 3, .byte 4, .fail timedOut, .byte 0xFA, .byte 0xAA, .byte 0x01, .byte 0xFA],
        [], [], 0⟩ [3, 4] timedOut 0xAA 0x01 [.byte 0xFA]
      rfl (by decide) (by decide) (by decide) rfl (by decide)).2.1 (by decide)⟩

/-- C10 as stated fails: a zero-length request with a non-null buffer is not
refused.  In back-door mode on an acknowledging transport
`ReadRMIPacketRegister (len = 0)` writes its four command bytes and returns
success, and so does `Read (len = 0, isPacketRegister = TRUE)`;
`Read (len = 0, isPacketRegister = FALSE)` returns success at once. -/
theorem C10_zero_length_succeeds :
    ReadRMIPacketRegister ps2 ⟨⟨List.replicate 4 (.byte 0xFA), [], [], 0⟩, 0, true, false⟩
        0x10 (some []) 0 =
      (.ok [], ⟨⟨[], [], [0xE7, 0xF3, 0x10, 0xE9], 4⟩, 0, true, false⟩) ∧
    Read ps2 ⟨⟨List.replicate 4 (.byte 0xFA), [], [], 0⟩, 0, true, false⟩
        0x10 (some []) 0 true =
      (.ok (some []), ⟨⟨[], [], [0xE7, 0xF3, 0x10, 0xE9], 4⟩, 0, true, false⟩) ∧
    Read ps2 ⟨⟨List.replicate 4 (.byte 0xFA), [], [], 0⟩, 0, true, false⟩
        0x10 (some []) 0 false =
      (.ok (some []), ⟨⟨List.replicate 4 (.byte 0xFA), [], [], 0⟩, 0, true, false⟩) := by
  decide

/-- C10, amended: a null buffer makes `ReadRMIRegister` and
`ReadRMIPacketRegister` fail at once with the "no buffer set!" error, with no
transport I/O and the state unchanged, and `Read` of a packet register fails
with that error once its page is selected.  A zero length is not checked: on
an acknowledging transport `ReadRMIPacketRegister (len = 0)` with a buffer
writes its command bytes, reads no data byte and succeeds with the buffer
untouched, and `Read (len = 0)` of plain registers succeeds after the page
selection with no register command at all. -/
theorem C10_null_buffer_fails_fast (K : Ps2Codes) (hK : K.WF) (self : FuSynapticsRmiPs2Device)
    (addr len : Nat) (b : List Nat)
    (hack : Acks K ((backdoor_bytes K self).length + 4) self.io_channel) :
    ReadRMIRegister K self addr none = (.error ⟨.FAILED, "no buffer set!"⟩, self) ∧
    ReadRMIPacketRegister K self addr none len = (.error ⟨.FAILED, "no buffer set!"⟩, self) ∧
    ReadRMIPacketRegister K self addr (some b) 0 =
      (.ok b, { self with io_channel :=
        ⟨self.io_channel.rx.drop ((backdoor_bytes K self).length + 4),
          self.io_channel.tx.drop ((backdoor_bytes K self).length + 4),
          self.io_channel.written ++ backdoor_bytes K self ++
            [K.edpAuxSetScaling2To1, K.edpAuxSetSampleRate, addr % 256, K.edpAuxStatusRequest],
          self.io_channel.reads + ((backdoor_bytes K self).length + 4)⟩ }) ∧
    (self.currentPage = 0 →
      Read K self addr none len true =
        (.error (g_prefix_error ⟨.FAILED, "no buffer set!"⟩ "failed packet register read %x:"),
          self) ∧
      Read K self addr (some b) 0 false = (.ok (some b), self)) := by
  refine ⟨rfl, rfl, ?_, ?_⟩
  · unfold ReadRMIPacketRegister
    simp only []
    rw [backdoor_guard_acked hK (n := 4) self hack]
    simp only []
    rw [read_command_acked hK (n := 0) _ addr (by simpa using hack)]
    simp [read_packet_loop, FuIOChannel.acked]
  · intro hp
    have hshift : (addr % 256) >>> 8 = 0 := by
      rw [Nat.shiftRight_eq_div_pow]
      omega
    constructor
    · simp [Read, SetRMIPage, hshift, hp, ReadRMIPacketRegister]
    · simp [Read, SetRMIPage, hshift, hp, read_registers_loop]

/-- An instance of amended C10 in back-door mode with page 0 selected. -/
theorem C10_null_buffer_fails_fast_witness :
    ReadRMIPacketRegister ps2 ⟨⟨List.replicate 4 (.byte 0xFA), [], [], 0⟩, 0, true, false⟩
        0x10 none 4 =
      (.error ⟨.FAILED, "no buffer set!"⟩,
        ⟨⟨List.replicate 4 (.byte 0xFA), [], [], 0⟩, 0, true, false⟩) ∧
    Read ps2 ⟨⟨List.replicate 4 (.byte 0xFA), [], [], 0⟩, 0, true, false⟩ 0x10 none 4 true =
      (.error (g_prefix_error ⟨.FAILED, "no buffer set!"⟩ "failed packet register read %x:"),
        ⟨⟨List.replicate 4 (.byte 0xFA), [], [], 0⟩, 0, true, false⟩) :=
  ⟨(C10_null_buffer_fails_fast ps2 (by decide)
      ⟨⟨List.replicate 4 (.byte 0xFA), [], [], 0⟩, 0, true, false⟩ 0x10 4 [] (by decide)).2.1,
   ((C10_null_buffer_fails_fast ps2 (by decide)
      ⟨⟨List.replicate 4 (.byte 0xFA), [], [], 0⟩, 0, true, false⟩ 0x10 4 []
      (by decide)).2.2.2 rfl).1⟩

/-! General facts on the primitives, for every behaviour of the transport. -/

theorem read_raw_frame (ch : FuIOChannel) (t : Nat) :
    (fu_io_channel_read_raw ch t).2.written = ch.written ∧
    (fu_io_channel_read_raw ch t).2.tx = ch.tx ∧
    (fu_io_channel_read_raw ch t).2.reads = ch.reads + 1 ∧
    (fu_io_channel_read_raw ch t).2.rx = ch.rx.drop 1 := by
  unfold fu_io_channel_read_raw
  rcases ch.rx with _ | ⟨x, r⟩
  · simp
  · cases x <;> simp

theorem read_raw_ok_inv (ch : FuIOChannel) (t v : Nat)
    (h : (fu_io_channel_read_raw ch t).1 = .ok v) :
    ∃ a, ch.rx = .byte a :: (fu_io_channel_read_raw ch t).2.rx ∧ a % 256 = v := by
  unfold fu_io_channel_read_raw at h ⊢
  rcases hx : ch.rx with _ | ⟨x, r⟩
  · rw [hx] at h; simp at h
  · rw [hx] at h
    cases x with
    | byte a => exact ⟨a, by simp, by simpa using h⟩
    | fail e => simp at h

theorem ReadACK_loop_frame :
    ∀ (n : Nat) (ch : FuIOChannel),
      (ReadACK_loop n ch).2.written = ch.written ∧
      (ReadACK_loop n ch).2.tx = ch.tx ∧
      ch.reads ≤ (ReadACK_loop n ch).2.reads ∧
      (ReadACK_loop n ch).2.reads ≤ ch.reads + n ∧
      (∃ pre, ch.rx = pre ++ (ReadACK_loop n ch).2.rx) ∧
      (∀ v, (ReadACK_loop n ch).1 = .ok v →
        ∃ pre a, ch.rx = pre ++ .byte a :: (ReadACK_loop n ch).2.rx ∧ a % 256 = v) := by
  intro n
  induction n with
  | zero =>
    intro ch
    refine ⟨rfl, rfl, Nat.le_refl _, Nat.le_refl _, ⟨[], rfl⟩, ?_⟩
    intro v h
    simp [ReadACK_loop] at h
  | succ n ih =>
    intro ch
    obtain ⟨f1, f2, f3, f4⟩ := read_raw_frame ch 60
    have hinv := read_raw_ok_inv ch 60
    rw [ReadACK_loop]
    rcases hr : fu_io_channel_read_raw ch 60 with ⟨r, ch1⟩
    rw [hr] at f1 f2 f3 f4 hinv
    simp only at f1 f2 f3 f4 hinv
    have hdrop : ∃ pre, ch.rx = pre ++ ch1.rx := ⟨ch.rx.take 1, by rw [f4, List.take_append_drop]⟩
    rcases r with e | b
    · simp only []
      by_cases hm : g_error_matches e .TIMED_OUT = true
      · rw [if_pos hm]
        obtain ⟨i1, i2, i3, i4, ⟨pre, i5⟩, i6⟩ := ih ch1
        obtain ⟨p0, hp0⟩ := hdrop
        refine ⟨by rw [i1, f1], by rw [i2, f2], by omega, by omega,
          ⟨p0 ++ pre, by rw [hp0, i5, List.append_assoc]⟩, ?_⟩
        intro v hv
        obtain ⟨pre1, a, h1, h2⟩ := i6 v hv
        exact ⟨p0 ++ pre1, a, by rw [hp0, h1, List.append_assoc], h2⟩
      · rw [if_neg hm]
        refine ⟨f1, f2, by simp only []; omega, by simp only []; omega, hdrop, ?_⟩
        intro v hv
        simp at hv
    · simp only []
      refine ⟨f1, f2, by omega, by omega, hdrop, ?_⟩
      intro v hv
      obtain ⟨a, h1, h2⟩ := hinv b rfl
      have : b = v := by simpa using hv
      subst this
      exact ⟨[], a, by simpa using h1, h2⟩

theorem write_raw_frame (ch : FuIOChannel) (b t : Nat) :
    (fu_io_channel_write_raw ch b t).2.written = ch.written ++ [b] ∧
    (fu_io_channel_write_raw ch b t).2.tx = ch.tx.drop 1 ∧
    (fu_io_channel_write_raw ch b t).2.reads = ch.reads ∧
    (fu_io_channel_write_raw ch b t).2.rx = ch.rx ∧
    (∀ e, (fu_io_channel_write_raw ch b t).1 = .error e → RawWrite.fail e ∈ ch.tx) := by
  unfold fu_io_channel_write_raw
  rcases ch.tx with _ | ⟨x, r⟩
  · simp
  · cases x <;> simp

/-- What `WriteByte` can do on any transport: at most `n` raw writes, all of
the byte; at most `60 * n` raw reads; success only right after a raw read
that delivered the acknowledge status; an error that is either the plain
"failed" or the error of a raw write. -/
theorem WriteByte_loop_frame (K : Ps2Codes) (b t : Nat) :
    ∀ (n : Nat) (dw : Bool) (ch : FuIOChannel),
      (∃ j, j ≤ n ∧ (WriteByte_loop K b t n dw ch).2.written = ch.written ++ List.replicate j b) ∧
      (WriteByte_loop K b t n dw ch).2.reads ≤ ch.reads + 60 * n ∧
      (∃ pre, ch.rx = pre ++ (WriteByte_loop K b t n dw ch).2.rx) ∧
      ((WriteByte_loop K b t n dw ch).1 = .ok () →
        ∃ pre a, ch.rx = pre ++ .byte a :: (WriteByte_loop K b t n dw ch).2.rx ∧
          a % 256 = K.edpsAcknowledge) ∧
      (∀ e, (WriteByte_loop K b t n dw ch).1 = .error e →
        e = ⟨.FAILED, "failed"⟩ ∨ RawWrite.fail e ∈ ch.tx) := by
  intro n
  induction n with
  | zero =>
    intro dw ch
    refine ⟨⟨0, Nat.le_refl _, by simp [WriteByte_loop]⟩, by simp [WriteByte_loop],
      ⟨[], rfl⟩, ?_, ?_⟩
    · intro h; simp [WriteByte_loop] at h
    · intro e h
      left
      simpa [WriteByte_loop] using h.symm
  | succ n ih =>
    intro dw ch
    -- the channel after the optional raw write
    have hw : ∃ (r : Except GError Unit) (ch1 : FuIOChannel) (k : Nat),
        (if dw = true then fu_io_channel_write_raw ch b t else (.ok (), ch)) = (r, ch1) ∧
        k ≤ 1 ∧ ch1.written = ch.written ++ List.replicate k b ∧ ch1.reads = ch.reads ∧
        ch1.rx = ch.rx ∧ (∀ w, w ∈ ch1.tx → w ∈ ch.tx) ∧
        (∀ e, r = .error e → RawWrite.fail e ∈ ch.tx) := by
      cases dw with
      | true =>
        obtain ⟨w1, w2, w3, w4, w5⟩ := write_raw_frame ch b t
        exact ⟨_, _, 1, by simp, Nat.le_refl _, by simpa using w1, w3, w4,
          fun w hw => List.mem_of_mem_drop (w2 ▸ hw), w5⟩
      | false =>
        exact ⟨.ok (), ch, 0, by simp, by omega, by simp, rfl, rfl, fun w hw => hw,
          fun e he => by simp at he⟩
    obtain ⟨r, ch1, k, hwe, hk, hwr, hrd, hrx, htx, herr⟩ := hw
    rw [WriteByte_loop, hwe]
    rcases r with e | u
    · simp only []
      refine ⟨⟨k, by omega, hwr⟩, by rw [hrd]; omega, ⟨[], by simp [hrx]⟩, ?_, ?_⟩
      · intro h; simp at h
      · intro e' he'
        right
        have : e = e' := by simpa using he'
        subst this
        exact herr e rfl
    · simp only []
      obtain ⟨a1, a2, a3, a4, ⟨apre, a5⟩, a6⟩ := ReadACK_loop_frame 60 ch1
      have hA : ReadACK ch1 = ReadACK_loop 60 ch1 := rfl
      rcases hr : ReadACK_loop 60 ch1 with ⟨ra, ch2⟩
      rw [hA, hr]
      rw [hr] at a1 a2 a3 a4 a5 a6
      simp only at a1 a2 a3 a4 a5 a6
      -- the recursive call, whatever its flag
      have hrec : ∀ dw2 : Bool,
          (∃ j, j ≤ n + 1 ∧ (WriteByte_loop K b t n dw2 ch2).2.written =
            ch.written ++ List.replicate j b) ∧
          (WriteByte_loop K b t n dw2 ch2).2.reads ≤ ch.reads + 60 * (n + 1) ∧
          (∃ pre, ch.rx = pre ++ (WriteByte_loop K b t n dw2 ch2).2.rx) ∧
          ((WriteByte_loop K b t n dw2 ch2).1 = .ok () →
            ∃ pre a, ch.rx = pre ++ .byte a :: (WriteByte_loop K b t n dw2 ch2).2.rx ∧
              a % 256 = K.edpsAcknowledge) ∧
          (∀ e, (WriteByte_loop K b t n dw2 ch2).1 = .error e →
            e = ⟨.FAILED, "failed"⟩ ∨ RawWrite.fail e ∈ ch.tx) := by
        intro dw2
        obtain ⟨⟨j, hj, i1⟩, i2, ⟨ipre, i3⟩, i4, i5⟩ := ih dw2 ch2
        refine ⟨⟨k + j, by omega, ?_⟩, by omega, ⟨apre ++ ipre, ?_⟩, ?_, ?_⟩
        · rw [i1, a1, hwr, List.append_assoc, ← List.replicate_add]
        · rw [← hrx, a5, i3, List.append_assoc]
        · intro hok
          obtain ⟨p, a, h1, h2⟩ := i4 hok
          exact ⟨apre ++ p, a, by rw [← hrx, a5, h1, List.append_assoc], h2⟩
        · intro e he
          rcases i5 e he with h | h
          · exact Or.inl h
          · exact Or.inr (htx _ (a2 ▸ h))
      rcases ra with e | res
      · simp only []
        exact hrec false
      · simp only []
        by_cases h1 : res = K.edpsAcknowledge
        · rw [if_pos h1]
          refine ⟨⟨k, by omega, by rw [a1, hwr]⟩, by simp only []; omega,
            ⟨apre, by rw [← hrx, a5]⟩, ?_, ?_⟩
          · intro _
            obtain ⟨p, a, h2, h3⟩ := a6 res rfl
            exact ⟨p, a, by rw [← hrx, h2], by rw [h3, h1]⟩
          · intro e he; simp at he
        · rw [if_neg h1]
          by_cases h2 : res = K.edpsResend
          · rw [if_pos h2]; exact hrec true
          · rw [if_neg h2]
            by_cases h3 : res = K.edpsError
            · rw [if_pos h3]; exact hrec true
            · rw [if_neg h3]; exact hrec false

theorem ReadACK_loop_timeouts :
    ∀ (touts : List GError) (n : Nat) (ch : FuIOChannel) (rest : List RawRead),
      (∀ e ∈ touts, e.code = .TIMED_OUT) → ch.rx = touts.map RawRead.fail ++ rest →
      ReadACK_loop (touts.length + n) ch =
        ReadACK_loop n ⟨rest, ch.tx, ch.written, ch.reads + touts.length⟩ := by
  intro touts
  induction touts with
  | nil =>
    intro n ch rest _ h
    obtain ⟨rx, tx, w, k⟩ := ch
    simp only [List.map_nil, List.nil_append] at h
    subst h
    simp
  | cons e touts ih =>
    intro n ch rest hto h
    have he : g_error_matches e .TIMED_OUT = true := by
      simp [g_error_matches, hto e (by simp)]
    have hlen : (e :: touts).length + n = (touts.length + n) + 1 := by
      simp only [List.length_cons]; omega
    rw [hlen, ReadACK_loop,
      read_raw_fail ch e 60 (touts.map RawRead.fail ++ rest) (by simpa using h)]
    simp only [he, if_true]
    rw [ih n _ rest (fun x hx => hto x (by simp [hx])) rfl]
    simp [Nat.add_assoc, Nat.add_comm 1]

theorem ReadACK_loop_silence :
    ∀ (n : Nat) (ch : FuIOChannel), ch.rx = [] →
      ReadACK_loop n ch = (.error ⟨.FAILED, "failed"⟩, ⟨[], ch.tx, ch.written, ch.reads + n⟩) := by
  intro n
  induction n with
  | zero =>
    intro ch h
    obtain ⟨rx, tx, w, k⟩ := ch
    simp only at h
    subst h
    simp [ReadACK_loop]
  | succ n ih =>
    intro ch h
    rw [ReadACK_loop]
    unfold fu_io_channel_read_raw
    rw [h]
    simp only [g_error_matches, timedOut, decide_True, if_true]
    rw [ih _ rfl]
    simp [Nat.add_assoc, Nat.add_comm 1]

/-- C15: `ReadACK` returns the byte of the first raw read that succeeds when
at most 59 reads timed out before it; it returns the "failed" error after
exactly 60 reads when all 60 time out (scripted time-outs, or a transport that
stays silent); a read that fails with another error is returned at once,
with no further read; and on any transport it makes at most 60 reads. -/
theorem C15_read_ack (ch : FuIOChannel) :
    (∀ (touts : List GError) (b : Nat) (r : List RawRead),
      (∀ e ∈ touts, e.code = .TIMED_OUT) → touts.length ≤ 59 →
      ch.rx = touts.map RawRead.fail ++ .byte b :: r →
      ReadACK ch = (.ok (b % 256), ⟨r, ch.tx, ch.written, ch.reads + touts.length + 1⟩)) ∧
    (∀ (touts : List GError) (e : GError) (r : List RawRead),
      (∀ e ∈ touts, e.code = .TIMED_OUT) → touts.length ≤ 59 → e.code ≠ .TIMED_OUT →
      ch.rx = touts.map RawRead.fail ++ .fail e :: r →
      ReadACK ch = (.error e, ⟨r, ch.tx, ch.written, ch.reads + touts.length + 1⟩)) ∧
    (∀ (touts : List GError) (r : List RawRead),
      (∀ e ∈ touts, e.code = .TIMED_OUT) → touts.length = 60 →
      ch.rx = touts.map RawRead.fail ++ r →
      ReadACK ch = (.error ⟨.FAILED, "failed"⟩, ⟨r, ch.tx, ch.written, ch.reads + 60⟩)) ∧
    (∀ (touts : List GError),
      (∀ e ∈ touts, e.code = .TIMED_OUT) → touts.length ≤ 60 →
      ch.rx = touts.map RawRead.fail →
      ReadACK ch = (.error ⟨.FAILED, "failed"⟩, ⟨[], ch.tx, ch.written, ch.reads + 60⟩)) ∧
    (ReadACK ch).2.reads ≤ ch.reads + 60 := by
  refine ⟨?_, ?_, ?_, ?_, (ReadACK_loop_frame 60 ch).2.2.2.1⟩
  · intro touts b r hto hlen hrx
    obtain ⟨m, hm⟩ : ∃ m, 60 = touts.length + (m + 1) := ⟨59 - touts.length, by omega⟩
    unfold ReadACK
    rw [hm, ReadACK_loop_timeouts touts (m + 1) ch _ hto hrx, ReadACK_loop,
      read_raw_byte _ b 60 r rfl]
  · intro touts e r hto hlen he hrx
    obtain ⟨m, hm⟩ : ∃ m, 60 = touts.length + (m + 1) := ⟨59 - touts.length, by omega⟩
    have hne : g_error_matches e .TIMED_OUT = false := by simp [g_error_matches, he]
    unfold ReadACK
    rw [hm, ReadACK_loop_timeouts touts (m + 1) ch _ hto hrx, ReadACK_loop,
      read_raw_fail _ e 60 r rfl]
    simp [hne]
  · intro touts r hto hlen hrx
    have hm : 60 = touts.length + 0 := by omega
    unfold ReadACK
    rw [hm, ReadACK_loop_timeouts touts 0 ch r hto hrx, ReadACK_loop, hlen]
  · intro touts hto hlen hrx
    obtain ⟨m, hm⟩ : ∃ m, 60 = touts.length + m := ⟨60 - touts.length, by omega⟩
    unfold ReadACK
    rw [hm, ReadACK_loop_timeouts touts m ch [] hto (by simpa using hrx),
      ReadACK_loop_silence m _ rfl]
    simp [Nat.add_assoc]

/-- An instance of C15: two time-outs, then the byte `0xFA`; and one time-out,
then an I/O error that is returned with the rest of the script unread. -/
theorem C15_read_ack_witness :
    ReadACK ⟨[.fail timedOut, .fail timedOut, .byte 0xFA, .byte 0x01], [], [], 0⟩ =
      (.ok 0xFA, ⟨[.byte 0x01], [], [], 3⟩) ∧
    ReadACK ⟨[.fail timedOut, .fail ⟨.OTHER 5, "Input/output error"⟩, .byte 0xFA], [], [], 0⟩ =
      (.error ⟨.OTHER 5, "Input/output error"⟩, ⟨[.byte 0xFA], [], [], 2⟩) ∧
    ReadACK ⟨[], [], [], 0⟩ = (.error ⟨.FAILED, "failed"⟩, ⟨[], [], [], 60⟩) :=
  ⟨(C15_read_ack ⟨[.fail timedOut, .fail timedOut, .byte 0xFA, .byte 0x01], [], [], 0⟩).1
      [timedOut, timedOut] 0xFA [.byte 0x01] (by decide) (by decide) rfl,
   (C15_read_ack ⟨[.fail timedOut, .fail ⟨.OTHER 5, "Input/output error"⟩, .byte 0xFA],
      [], [], 0⟩).2.1 [timedOut] ⟨.OTHER 5, "Input/output error"⟩ [.byte 0xFA]
      (by decide) (by decide) (by decide) rfl,
   (C15_read_ack ⟨[], [], [], 0⟩).2.2.2.1 [] (by decide) (by decide) rfl⟩

theorem write_raw_fail (ch : FuIOChannel) (b t : Nat) (e : GError) (r : List RawWrite)
    (h : ch.tx = .fail e :: r) :
    fu_io_channel_write_raw ch b t = (.error e, { ch with tx := r, written := ch.written ++ [b] }) := by
  unfold fu_io_channel_write_raw
  rw [h]

/-- C20: on any transport whatever, `WriteByte` hands at most three bytes to
the raw write, all equal to its byte, and makes at most 180 raw reads; when
it returns success the last raw read it made delivered the acknowledge
status; and a raw write that fails, at whichever attempt, ends the call at
once with the error of that write and no acknowledge read. -/
theorem C20_write_byte_bounded (K : Ps2Codes) (ch : FuIOChannel) (b t : Nat) :
    (∃ j, j ≤ 3 ∧ (WriteByte K ch b t).2.written = ch.written ++ List.replicate j (b % 256)) ∧
    (WriteByte K ch b t).2.reads ≤ ch.reads + 180 ∧
    ((WriteByte K ch b t).1 = .ok () →
      ∃ pre a, ch.rx = pre ++ .byte a :: (WriteByte K ch b t).2.rx ∧
        a % 256 = K.edpsAcknowledge) ∧
    (∀ (e : GError) (r : List RawWrite), ch.tx = .fail e :: r →
      WriteByte K ch b t = (.error e, ⟨ch.rx, r, ch.written ++ [b % 256], ch.reads⟩)) ∧
    (∀ (n : Nat) (c : FuIOChannel) (e : GError) (r : List RawWrite), c.tx = .fail e :: r →
      WriteByte_loop K (b % 256) t (n + 1) true c =
        (.error e, ⟨c.rx, r, c.written ++ [b % 256], c.reads⟩)) := by
  have hfail : ∀ (n : Nat) (c : FuIOChannel) (e : GError) (r : List RawWrite),
      c.tx = .fail e :: r →
      WriteByte_loop K (b % 256) t (n + 1) true c =
        (.error e, ⟨c.rx, r, c.written ++ [b % 256], c.reads⟩) := by
    intro n c e r h
    rw [WriteByte_loop]
    simp only [if_true, write_raw_fail c _ t e r h]
  obtain ⟨f1, f2, -, f4, -⟩ := WriteByte_loop_frame K (b % 256) t 3 true ch
  exact ⟨f1, f2, f4, fun e r h => hfail 2 ch e r h, hfail⟩

/-- An instance of C20: a raw write that fails (no read at all), and a
transport that stays silent (one write, 180 reads). -/
theorem C20_write_byte_bounded_witness :
    WriteByte ps2 ⟨[.byte 0xFA], [.fail ⟨.OTHER 5, "Input/output error"⟩], [], 0⟩ 0x42 50 =
      (.error ⟨.OTHER 5, "Input/output error"⟩, ⟨[.byte 0xFA], [], [0x42], 0⟩) ∧
    (WriteByte ps2 ⟨[], [], [], 0⟩ 0x42 50).2.reads ≤ 0 + 180 :=
  ⟨(C20_write_byte_bounded ps2 ⟨[.byte 0xFA], [.fail ⟨.OTHER 5, "Input/output error"⟩], [], 0⟩
      0x42 50).2.2.2.1 ⟨.OTHER 5, "Input/output error"⟩ [] rfl,
   (C20_write_byte_bounded ps2 ⟨[], [], [], 0⟩ 0x42 50).2.1⟩

theorem sample_rate_loop_step (K : Ps2Codes) (param arg n i : Nat) (s : Bool)
    (ch : FuIOChannel) :
    sample_rate_loop K param arg (n + 1) i s ch =
      if (sample_rate_attempt K ch param arg (if i > 0 then true else s)).1 = true then
        (.ok (), (sample_rate_attempt K ch param arg (if i > 0 then true else s)).2)
      else
        sample_rate_loop K param arg n (i + 1) (if i > 0 then true else s)
          (sample_rate_attempt K ch param arg (if i > 0 then true else s)).2 := by
  rw [sample_rate_loop]
  unfold sample_rate_attempt
  generalize (if i > 0 then true else s) = s1
  rcases fu_synaptics_rmi_ps2_device_set_resolution_sequence K ch arg s1 with ⟨r1, c1⟩
  rcases r1 with e | u
  · simp
  · simp only []
    rcases WriteByte K c1 K.edpAuxSetSampleRate 50 with ⟨r2, c2⟩
    rcases r2 with e | u
    · simp
    · simp only []
      rcases WriteByte K c2 param 50 with ⟨r3, c3⟩
      rcases r3 with e | u <;> simp

theorem sample_rate_loop_error (K : Ps2Codes) (param arg : Nat) :
    ∀ (n i : Nat) (s : Bool) (ch : FuIOChannel) (e : GError),
      (sample_rate_loop K param arg n i s ch).1 = .error e → e = ⟨.FAILED, "too many tries"⟩ := by
  intro n
  induction n with
  | zero =>
    intro i s ch e h
    simpa [sample_rate_loop] using h.symm
  | succ n ih =>
    intro i s ch e h
    rw [sample_rate_loop_step] at h
    generalize (if i > 0 then true else s) = s1 at h
    by_cases ha : (sample_rate_attempt K ch param arg s1).1 = true
    · rw [if_pos ha] at h
      simp at h
    · rw [if_neg ha] at h
      exact ih _ _ _ e h

/-- C13 as stated fails: three acknowledge reads that fail with an I/O error
(not a time-out) make `WriteByte` return the fresh "failed" error, and nine
of them make the sample-rate sequence return the fresh "too many tries"
error; the I/O error is in neither. -/
theorem C13_io_error_is_dropped :
    WriteByte ps2 ⟨List.replicate 3 (.fail ⟨.OTHER 5, "Input/output error"⟩), [], [], 0⟩
        0x42 50 =
      (.error ⟨.FAILED, "failed"⟩, ⟨[], [], [0x42], 3⟩) ∧
    fu_synaptics_rmi_ps2_device_sample_rate_sequence ps2
        ⟨List.replicate 9 (.fail ⟨.OTHER 5, "Input/output error"⟩), [], [], 0⟩
        0x14 0x7F false =
      (.error ⟨.FAILED, "too many tries"⟩, ⟨[], [], [0xE6, 0xE6, 0xE6], 9⟩) := by
  decide

/-- C13, amended: the acknowledge reader returns a read error that is not a
time-out as it is, at once.  `WriteByte` drops the error of a failed
acknowledge read, whatever its kind, and tries again: an error it returns is
either the fresh "failed" of three used-up attempts or the error of a raw
write that failed.  The sample-rate sequence drops the error of each failed
attempt: the only error it returns is the fresh "too many tries". -/
theorem C13_ack_read_errors_dropped (K : Ps2Codes) (ch : FuIOChannel) (b t param arg : Nat)
    (send_e6s : Bool) :
    (∀ (e : GError) (r : List RawRead), ch.rx = .fail e :: r → e.code ≠ .TIMED_OUT →
      ReadACK ch = (.error e, ⟨r, ch.tx, ch.written, ch.reads + 1⟩)) ∧
    (∀ e : GError, (WriteByte K ch b t).1 = .error e →
      e = ⟨.FAILED, "failed"⟩ ∨ RawWrite.fail e ∈ ch.tx) ∧
    (∀ e : GError,
      (fu_synaptics_rmi_ps2_device_sample_rate_sequence K ch param arg send_e6s).1 = .error e →
      e = ⟨.FAILED, "too many tries"⟩) := by
  refine ⟨?_, (WriteByte_loop_frame K (b % 256) t 3 true ch).2.2.2.2, ?_⟩
  · intro e r hrx he
    have hne : g_error_matches e .TIMED_OUT = false := by simp [g_error_matches, he]
    unfold ReadACK
    rw [ReadACK_loop, read_raw_fail ch e 60 r hrx]
    simp [hne]
  · intro e h
    exact sample_rate_loop_error K param arg 3 0 send_e6s ch e h

/-- An instance of amended C13: the I/O error of the acknowledge read comes
out of `ReadACK`, and the error `WriteByte` returns on the same transport is
the plain "failed". -/
theorem C13_ack_read_errors_dropped_witness :
    ReadACK ⟨List.replicate 3 (.fail ⟨.OTHER 5, "Input/output error"⟩), [], [], 0⟩ =
      (.error ⟨.OTHER 5, "Input/output error"⟩,
        ⟨List.replicate 2 (.fail ⟨.OTHER 5, "Input/output error"⟩), [], [], 1⟩) ∧
    (WriteByte ps2 ⟨List.replicate 3 (.fail ⟨.OTHER 5, "Input/output error"⟩), [], [], 0⟩
      0x42 50).1 = .error ⟨.FAILED, "failed"⟩ ∧
    ((⟨.FAILED, "failed"⟩ : GError) = ⟨.FAILED, "failed"⟩ ∨
      RawWrite.fail ⟨.FAILED, "failed"⟩ ∈
        (FuIOChannel.mk (List.replicate 3 (.fail ⟨.OTHER 5, "Input/output error"⟩))
          [] [] 0).tx) :=
  ⟨(C13_ack_read_errors_dropped ps2
      ⟨List.replicate 3 (.fail ⟨.OTHER 5, "Input/output error"⟩), [], [], 0⟩ 0x42 50 0x14 0x7F
      false).1 ⟨.OTHER 5, "Input/output error"⟩
      (List.replicate 2 (.fail ⟨.OTHER 5, "Input/output error"⟩)) rfl (by decide),
   by decide,
   (C13_ack_read_errors_dropped ps2
      ⟨List.replicate 3 (.fail ⟨.OTHER 5, "Input/output error"⟩), [], [], 0⟩ 0x42 50 0x14 0x7F
      false).2.1 ⟨.FAILED, "failed"⟩ (by decide)⟩

theorem sample_rate_sequence_attempts (K : Ps2Codes) (ch : FuIOChannel) (param arg : Nat)
    (send_e6s : Bool) :
    fu_synaptics_rmi_ps2_device_sample_rate_sequence K ch param arg send_e6s =
      (if (sample_rate_attempt K ch param arg send_e6s).1 = true then
        (.ok (), (sample_rate_attempt K ch param arg send_e6s).2)
      else if (sample_rate_attempt K
          (sample_rate_attempt K ch param arg send_e6s).2 param arg true).1 = true then
        (.ok (), (sample_rate_attempt K
          (sample_rate_attempt K ch param arg send_e6s).2 param arg true).2)
      else if (sample_rate_attempt K (sample_rate_attempt K
          (sample_rate_attempt K ch param arg send_e6s).2 param arg true).2
            param arg true).1 = true then
        (.ok (), (sample_rate_attempt K (sample_rate_attempt K
          (sample_rate_attempt K ch param arg send_e6s).2 param arg true).2 param arg true).2)
      else
        (.error ⟨.FAILED, "too many tries"⟩, (sample_rate_attempt K (sample_rate_attempt K
          (sample_rate_attempt K ch param arg send_e6s).2 param arg true).2
            param arg true).2)) := by
  unfold fu_synaptics_rmi_ps2_device_sample_rate_sequence
  rw [sample_rate_loop_step, sample_rate_loop_step, sample_rate_loop_step, sample_rate_loop]
  simp

/-- C17: the sample-rate sequence is at most three attempts.  The first runs
with the caller's `send_e6s`, the second and the third with `send_e6s = TRUE`
whatever the caller passed; each attempt is the set-resolution sequence of
`arg`, then set sample rate, then `param`.  The sequence returns success at
the first attempt that succeeds, leaving the channel as that attempt left it,
and returns the "too many tries" error exactly when all three attempts
fail. -/
theorem C17_sample_rate_attempts (K : Ps2Codes) (ch : FuIOChannel) (param arg : Nat)
    (send_e6s : Bool) :
    fu_synaptics_rmi_ps2_device_sample_rate_sequence K ch param arg send_e6s =
      (if (sample_rate_attempt K ch param arg send_e6s).1 = true then
        (.ok (), (sample_rate_attempt K ch param arg send_e6s).2)
      else if (sample_rate_attempt K
          (sample_rate_attempt K ch param arg send_e6s).2 param arg true).1 = true then
        (.ok (), (sample_rate_attempt K
          (sample_rate_attempt K ch param arg send_e6s).2 param arg true).2)
      else if (sample_rate_attempt K (sample_rate_attempt K
          (sample_rate_attempt K ch param arg send_e6s).2 param arg true).2
            param arg true).1 = true then
        (.ok (), (sample_rate_attempt K (sample_rate_attempt K
          (sample_rate_attempt K ch param arg send_e6s).2 param arg true).2 param arg true).2)
      else
        (.error ⟨.FAILED, "too many tries"⟩, (sample_rate_attempt K (sample_rate_attempt K
          (sample_rate_attempt K ch param arg send_e6s).2 param arg true).2
            param arg true).2)) ∧
    ((fu_synaptics_rmi_ps2_device_sample_rate_sequence K ch param arg send_e6s).1 =
        .error ⟨.FAILED, "too many tries"⟩ ↔
      (sample_rate_attempt K ch param arg send_e6s).1 = false ∧
      (sample_rate_attempt K
        (sample_rate_attempt K ch param arg send_e6s).2 param arg true).1 = false ∧
      (sample_rate_attempt K (sample_rate_attempt K
        (sample_rate_attempt K ch param arg send_e6s).2 param arg true).2
          param arg true).1 = false) := by
  have heq := sample_rate_sequence_attempts K ch param arg send_e6s
  refine ⟨heq, ?_⟩
  rw [heq]
  rcases sample_rate_attempt K ch param arg send_e6s with ⟨o1, c1⟩
  rcases sample_rate_attempt K c1 param arg true with ⟨o2, c2⟩
  rcases sample_rate_attempt K c2 param arg true with ⟨o3, c3⟩
  cases o1 <;> cases o2 <;> cases o3 <;> simp

/-- The retry of the sample-rate sequence at work: the caller passes
`send_e6s = FALSE`, the first set-scaling byte gets three answers that are no
status (`0x00`), every later byte is acknowledged.  The first attempt is the
lone `0xE6`; the second attempt starts with two of them. -/
theorem sample_rate_retry_example :
    fu_synaptics_rmi_ps2_device_sample_rate_sequence ps2
        ⟨List.replicate 3 (.byte 0x00) ++ List.replicate 12 (.byte 0xFA), [], [], 0⟩
        0x14 0x7F false =
      (.ok (), ⟨[], [],
        [0xE6] ++ [0xE6, 0xE6, 0xE8, 1, 0xE8, 3, 0xE8, 3, 0xE8, 3, 0xF3, 0x14], 15⟩) := by
  decide

theorem ReadACK_written (ch : FuIOChannel) : (ReadACK ch).2.written = ch.written :=
  (ReadACK_loop_frame 60 ch).1

/-- One turn of the loop of `WriteByte` whose raw write, if any, succeeds. -/
theorem WriteByte_loop_step (K : Ps2Codes) (b t n : Nat) (dw : Bool) (ch c : FuIOChannel)
    (r : Except GError Nat) (htx : TxOk ch)
    (h : ReadACK (if dw = true then { ch with tx := ch.tx.drop 1, written := ch.written ++ [b] }
      else ch) = (r, c)) :
    WriteByte_loop K b t (n + 1) dw ch =
      if r = .ok K.edpsAcknowledge then (.ok (), c)
      else WriteByte_loop K b t n (asks_resend K r) c := by
  rw [WriteByte_loop]
  cases dw with
  | true =>
    simp only [if_true, write_raw_ok ch b t htx] at h ⊢
    rw [h]
    rcases r with e | res
    · simp [asks_resend]
    · simp only [Except.ok.injEq, asks_resend]
      by_cases h1 : res = K.edpsAcknowledge
      · simp [h1]
      · by_cases h2 : res = K.edpsResend
        · simp [h1, h2]
        · by_cases h3 : res = K.edpsError <;> simp [h1, h2, h3]
  | false =>
    simp only [Bool.false_eq_true, if_false] at h ⊢
    rw [h]
    rcases r with e | res
    · simp [asks_resend]
    · simp only [Except.ok.injEq, asks_resend]
      by_cases h1 : res = K.edpsAcknowledge
      · simp [h1]
      · by_cases h2 : res = K.edpsResend
        · simp [h1, h2]
        · by_cases h3 : res = K.edpsError <;> simp [h1, h2, h3]

theorem TxOk_of_tx_drop {ch c : FuIOChannel} {k : Nat} (h : TxOk ch) (hc : c.tx = ch.tx.drop k) :
    TxOk c := by
  intro w hw
  rw [hc] at hw
  exact h w (List.mem_of_mem_drop hw)

/-- C16: the three attempts of `WriteByte` on a transport whose raw writes
succeed, `r1`, `r2`, `r3` being the results of the three acknowledge reads.
Attempt 1 writes the byte; attempt `k + 1` writes it again exactly when
attempt `k` read the resend or the error status, and otherwise (another byte,
or a failed acknowledge read) only reads the acknowledge again.  The first
attempt that reads the acknowledge status ends the call with success, the
channel being as that read left it; without one the call fails. -/
theorem C16_write_byte_attempts (K : Ps2Codes) (ch c1 c2 c3 : FuIOChannel) (b t : Nat)
    (r1 r2 r3 : Except GError Nat) (hb : b < 256) (htx : TxOk ch)
    (h1 : ReadACK { ch with tx := ch.tx.drop 1, written := ch.written ++ [b] } = (r1, c1))
    (h2 : ReadACK (if asks_resend K r1 = true then
        { c1 with tx := c1.tx.drop 1, written := c1.written ++ [b] } else c1) = (r2, c2))
    (h3 : ReadACK (if asks_resend K r2 = true then
        { c2 with tx := c2.tx.drop 1, written := c2.written ++ [b] } else c2) = (r3, c3)) :
    WriteByte K ch b t =
      (if r1 = .ok K.edpsAcknowledge then (.ok (), c1)
       else if r2 = .ok K.edpsAcknowledge then (.ok (), c2)
       else if r3 = .ok K.edpsAcknowledge then (.ok (), c3)
       else (.error ⟨.FAILED, "failed"⟩, c3)) ∧
    c1.written = ch.written ++ [b] ∧
    c2.written = c1.written ++ (if asks_resend K r1 = true then [b] else []) ∧
    c3.written = c2.written ++ (if asks_resend K r2 = true then [b] else []) := by
  have f1 := ReadACK_loop_frame 60 { ch with tx := ch.tx.drop 1, written := ch.written ++ [b] }
  have f2 := ReadACK_loop_frame 60 (if asks_resend K r1 = true then
        { c1 with tx := c1.tx.drop 1, written := c1.written ++ [b] } else c1)
  have f3 := ReadACK_loop_frame 60 (if asks_resend K r2 = true then
        { c2 with tx := c2.tx.drop 1, written := c2.written ++ [b] } else c2)
  have e1 : ReadACK_loop 60 { ch with tx := ch.tx.drop 1, written := ch.written ++ [b] } =
      (r1, c1) := h1
  have e2 : ReadACK_loop 60 (if asks_resend K r1 = true then
        { c1 with tx := c1.tx.drop 1, written := c1.written ++ [b] } else c1) = (r2, c2) := h2
  have e3 : ReadACK_loop 60 (if asks_resend K r2 = true then
        { c2 with tx := c2.tx.drop 1, written := c2.written ++ [b] } else c2) = (r3, c3) := h3
  rw [e1] at f1
  rw [e2] at f2
  rw [e3] at f3
  have t1 : TxOk c1 := TxOk_of_tx_drop (k := 1) htx f1.2.1
  have t2 : TxOk c2 := by
    by_cases ha : asks_resend K r1 = true
    · rw [if_pos ha] at f2
      exact TxOk_of_tx_drop (k := 1) t1 f2.2.1
    · rw [if_neg ha] at f2
      exact TxOk_of_tx_drop (k := 0) t1 (by simpa using f2.2.1)
  refine ⟨?_, f1.1, ?_, ?_⟩
  · unfold WriteByte
    rw [Nat.mod_eq_of_lt hb, WriteByte_loop_step K b t 2 true ch c1 r1 htx (by simpa using h1),
      WriteByte_loop_step K b t 1 (asks_resend K r1) c1 c2 r2 t1 h2,
      WriteByte_loop_step K b t 0 (asks_resend K r2) c2 c3 r3 t2 h3, WriteByte_loop]
  · by_cases ha : asks_resend K r1 = true
    · rw [if_pos ha] at f2 ⊢; exact f2.1
    · rw [if_neg ha] at f2 ⊢; simpa using f2.1
  · by_cases ha : asks_resend K r2 = true
    · rw [if_pos ha] at f3 ⊢; exact f3.1
    · rw [if_neg ha] at f3 ⊢; simpa using f3.1

/-- An instance of C16: the answers resend, a byte that is no status (`0x00`),
acknowledge.  Two raw writes (attempts 1 and 2), none at attempt 3, success. -/
theorem C16_write_byte_attempts_witness :
    WriteByte ps2 ⟨[.byte 0xFE, .byte 0x00, .byte 0xFA, .byte 0x77], [], [], 0⟩ 0x42 50 =
      (.ok (), ⟨[.byte 0x77], [], [0x42, 0x42], 3⟩) :=
  (C16_write_byte_attempts ps2 ⟨[.byte 0xFE, .byte 0x00, .byte 0xFA, .byte 0x77], [], [], 0⟩
    ⟨[.byte 0x00, .byte 0xFA, .byte 0x77], [], [0x42], 1⟩
    ⟨[.byte 0xFA, .byte 0x77], [], [0x42, 0x42], 2⟩
    ⟨[.byte 0x77], [], [0x42, 0x42], 3⟩ 0x42 50 (.ok 0xFE) (.ok 0x00) (.ok 0xFA)
    (by decide) (by decide) (by decide) (by decide) (by decide)).1

/-- C18 as stated fails: with `send_e6s = FALSE` the set-scaling byte `0xE6`
is written once, and the sequence is nine bytes long. -/
theorem C18_one_scaling_byte_without_send_e6s :
    fu_synaptics_rmi_ps2_device_set_resolution_sequence ps2
        ⟨List.replicate 9 (.byte 0xFA), [], [], 0⟩ 0x7F false =
      (.ok (), ⟨[], [], [0xE6, 0xE8, 1, 0xE8, 3, 0xE8, 3, 0xE8, 3], 9⟩) := by
  decide

/-- C18, amended: on an acknowledging transport the set-resolution sequence
writes the set-scaling byte twice before the four pairs when `send_e6s` is
true and once when it is false, so it writes 10 bytes with `send_e6s` and 9
without. -/
theorem C18_scaling_twice_or_once (K : Ps2Codes) (hK : K.WF) (ch : FuIOChannel)
    (arg : Nat) (send_e6s : Bool) (harg : arg < 256)
    (hack : Acks K ((if send_e6s then 2 else 1) + 8) ch) :
    (fu_synaptics_rmi_ps2_device_set_resolution_sequence K ch arg send_e6s).1 = .ok () ∧
    (fu_synaptics_rmi_ps2_device_set_resolution_sequence K ch arg send_e6s).2.written =
      ch.written ++ (if send_e6s then [K.edpAuxSetScaling1To1, K.edpAuxSetScaling1To1]
        else [K.edpAuxSetScaling1To1]) ++
        [K.edpAuxSetResolution, (arg >>> 6) &&& 3, K.edpAuxSetResolution, (arg >>> 4) &&& 3,
         K.edpAuxSetResolution, (arg >>> 2) &&& 3, K.edpAuxSetResolution, arg &&& 3] ∧
    (fu_synaptics_rmi_ps2_device_set_resolution_sequence K ch arg send_e6s).2.written.length =
      ch.written.length + (if send_e6s then 10 else 9) := by
  rw [set_resolution_sequence_acked hK ch arg send_e6s harg hack]
  cases send_e6s <;> simp [FuIOChannel.acked, List.replicate_succ]

/-- An instance of amended C18 for each value of `send_e6s`. -/
theorem C18_scaling_twice_or_once_witness :
    (fu_synaptics_rmi_ps2_device_set_resolution_sequence ps2
        ⟨List.replicate 10 (.byte 0xFA), [], [], 0⟩ 0x7F true).2.written.length = 0 + 10 ∧
    (fu_synaptics_rmi_ps2_device_set_resolution_sequence ps2
        ⟨List.replicate 10 (.byte 0xFA), [], [], 0⟩ 0x7F false).2.written.length = 0 + 9 :=
  ⟨(C18_scaling_twice_or_once ps2 (by decide) ⟨List.replicate 10 (.byte 0xFA), [], [], 0⟩
      0x7F true (by decide) (by decide)).2.2,
   (C18_scaling_twice_or_once ps2 (by decide) ⟨List.replicate 10 (.byte 0xFA), [], [], 0⟩
      0x7F false (by decide) (by decide)).2.2⟩

theorem backdoor_guard_page (K : Ps2Codes) (self : FuSynapticsRmiPs2Device) :
    (backdoor_guard K self).2.currentPage = self.currentPage := by
  unfold backdoor_guard
  split
  · rfl
  · split <;> rfl

/-- No register function changes `currentPage`: only `SetRMIPage` assigns it. -/
theorem register_calls_keep_page (K : Ps2Codes) (self : FuSynapticsRmiPs2Device)
    (addr : Nat) (data : List Nat) (len t : Nat) (v : Option Nat) (b : Option (List Nat)) :
    (WriteRMIRegister K self addr data len t).2.currentPage = self.currentPage ∧
    (ReadRMIRegister K self addr v).2.currentPage = self.currentPage ∧
    (ReadRMIPacketRegister K self addr b len).2.currentPage = self.currentPage := by
  have hg := backdoor_guard_page K self
  refine ⟨?_, ?_, ?_⟩
  · unfold WriteRMIRegister
    rcases hb : backdoor_guard K self with ⟨r, s1⟩
    rw [hb] at hg
    rcases r with e | u
    · exact hg
    · simp only []
      repeat' split
      all_goals exact hg
  · unfold ReadRMIRegister
    rcases v with _ | v
    · rfl
    · rcases hb : backdoor_guard K self with ⟨r, s1⟩
      rw [hb] at hg
      rcases r with e | u
      · exact hg
      · simp only []
        repeat' split
        all_goals exact hg
  · unfold ReadRMIPacketRegister
    rcases b with _ | b
    · rfl
    · rcases hb : backdoor_guard K self with ⟨r, s1⟩
      rw [hb] at hg
      rcases r with e | u
      · exact hg
      · simp only []
        repeat' split
        all_goals exact hg

/-- C11: whatever the transport does, a `SetRMIPage (p)` that fails leaves
`currentPage` and `inRMIBackdoor` as they were; one that succeeds leaves
`currentPage == p` (for a page that is a byte); and the register functions
themselves never change `currentPage`, so it changes only in a successful
`SetRMIPage`. -/
theorem C11_select_page_failure_atomic (K : Ps2Codes) (self : FuSynapticsRmiPs2Device)
    (p : Nat) :
    (∀ (e : GError) (s1 : FuSynapticsRmiPs2Device), SetRMIPage K self p = (.error e, s1) →
      s1.currentPage = self.currentPage ∧ s1.inRMIBackdoor = self.inRMIBackdoor) ∧
    (∀ s1 : FuSynapticsRmiPs2Device, SetRMIPage K self p = (.ok (), s1) → p < 256 →
      s1.currentPage = p ∧ s1.inRMIBackdoor = self.inRMIBackdoor) ∧
    (∀ (addr : Nat) (data : List Nat) (len t : Nat) (v : Option Nat) (b : Option (List Nat)),
      (WriteRMIRegister K self addr data len t).2.currentPage = self.currentPage ∧
      (ReadRMIRegister K self addr v).2.currentPage = self.currentPage ∧
      (ReadRMIPacketRegister K self addr b len).2.currentPage = self.currentPage) := by
  have hpage := (register_calls_keep_page K self 0xFF [p % 256] 1 20 none none).1
  have hflag := (register_calls_keep_flag K self 0xFF [p % 256] 1 20 none none).1
  refine ⟨?_, ?_, fun addr data len t v b => register_calls_keep_page K self addr data len t v b⟩
  · intro e s1 h
    unfold SetRMIPage at h
    by_cases hc : self.currentPage = p
    · rw [if_pos hc] at h
      simp at h
    · rw [if_neg hc] at h
      rcases hw : WriteRMIRegister K self 0xFF [p % 256] 1 20 with ⟨r, s2⟩
      rw [hw] at h hpage hflag
      rcases r with e2 | u
      · simp only at h
        have : s2 = s1 := (Prod.mk.inj h).2
        subst this
        exact ⟨hpage, hflag⟩
      · simp at h
  · intro s1 h hp
    unfold SetRMIPage at h
    by_cases hc : self.currentPage = p
    · rw [if_pos hc] at h
      have : self = s1 := (Prod.mk.inj h).2
      subst this
      exact ⟨hc, rfl⟩
    · rw [if_neg hc] at h
      rcases hw : WriteRMIRegister K self 0xFF [p % 256] 1 20 with ⟨r, s2⟩
      rw [hw] at h hpage hflag
      rcases r with e2 | u
      · simp at h
      · simp only at h
        have : { s2 with currentPage := p % 256 } = s1 := (Prod.mk.inj h).2
        subst this
        exact ⟨Nat.mod_eq_of_lt hp, hflag⟩

/-- An instance of C11: page 1 asked for on a transport that answers the
first byte with three resends; the call fails and the page is still 0. -/
theorem C11_select_page_failure_atomic_witness :
    SetRMIPage ps2 ⟨⟨List.replicate 3 (.byte 0xFE), [], [], 0⟩, 0, true, false⟩ 1 =
      (.error ⟨.FAILED, "failed to write page %d: failed to edpAuxSetScaling2To1: failed"⟩,
        ⟨⟨[], [], [0xE7, 0xE7, 0xE7], 3⟩, 0, true, false⟩) ∧
    (FuSynapticsRmiPs2Device.mk ⟨[], [], [0xE7, 0xE7, 0xE7], 3⟩ 0 true false).currentPage =
      (FuSynapticsRmiPs2Device.mk ⟨List.replicate 3 (.byte 0xFE), [], [], 0⟩
        0 true false).currentPage ∧
    (FuSynapticsRmiPs2Device.mk ⟨[], [], [0xE7, 0xE7, 0xE7], 3⟩ 0 true false).inRMIBackdoor =
      (FuSynapticsRmiPs2Device.mk ⟨List.replicate 3 (.byte 0xFE), [], [], 0⟩
        0 true false).inRMIBackdoor :=
  ⟨by decide,
   (C11_select_page_failure_atomic ps2
      ⟨⟨List.replicate 3 (.byte 0xFE), [], [], 0⟩, 0, true, false⟩ 1).1
      ⟨.FAILED, "failed to write page %d: failed to edpAuxSetScaling2To1: failed"⟩
      ⟨⟨[], [], [0xE7, 0xE7, 0xE7], 3⟩, 0, true, false⟩ (by decide)⟩

theorem open_keeps_link_state (K : Ps2Codes) (self : FuSynapticsRmiPs2Device)
    (ch : FuIOChannel) :
    (fu_synaptics_rmi_ps2_device_open K self ch).2.currentPage = self.currentPage ∧
    (fu_synaptics_rmi_ps2_device_open K self ch).2.inRMIBackdoor = self.inRMIBackdoor := by
  unfold fu_synaptics_rmi_ps2_device_open
  by_cases hb : self.is_bootloader = true
  · rw [if_pos hb]
    dsimp only
    constructor
    · repeat' split
      all_goals rfl
    · repeat' split
      all_goals rfl
  · rw [if_neg hb]
    exact ⟨rfl, rfl⟩

/-- C14 as stated fails.  First a state the code reaches (page 0, flag
clear): after close and reopen, `Write` to offset `0x40` sends the enable
sequence and the register write, and no page-control write (`E7 F3 FF F3 00`)
before them: the cached page is trusted.  Then a state with page 1 and the
flag set: close leaves both, and after the reopen `SetRMIPage (1)` writes
nothing and a register write sends no enable sequence. -/
theorem C14_close_keeps_cached_state :
    Write ps2
        (fu_synaptics_rmi_ps2_device_open ps2
          (fu_synaptics_rmi_ps2_device_close ⟨⟨[], [], [0xAA], 7⟩, 0, false, false⟩).2
          ⟨List.replicate 17 (.byte 0xFA), [], [], 0⟩).2
        0x40 [0x05] 1 20 =
      (.ok (), ⟨⟨[], [], enable_backdoor_bytes ps2 ++ [0xE7, 0xF3, 0x40, 0xF3, 0x05], 17⟩,
        0, false, false⟩) ∧
    fu_synaptics_rmi_ps2_device_close ⟨⟨[], [], [0xAA], 7⟩, 1, true, false⟩ =
      (.ok (), ⟨⟨[], [], [], 0⟩, 1, true, false⟩) ∧
    SetRMIPage ps2
        (fu_synaptics_rmi_ps2_device_open ps2
          (fu_synaptics_rmi_ps2_device_close ⟨⟨[], [], [0xAA], 7⟩, 1, true, false⟩).2
          ⟨List.replicate 5 (.byte 0xFA), [], [], 0⟩).2 1 =
      (.ok (), ⟨⟨List.replicate 5 (.byte 0xFA), [], [], 0⟩, 1, true, false⟩) ∧
    WriteRMIRegister ps2
        (fu_synaptics_rmi_ps2_device_open ps2
          (fu_synaptics_rmi_ps2_device_close ⟨⟨[], [], [0xAA], 7⟩, 1, true, false⟩).2
          ⟨List.replicate 5 (.byte 0xFA), [], [], 0⟩).2 0x40 [0x05] 1 20 =
      (.ok (), ⟨⟨[], [], [0xE7, 0xF3, 0x40, 0xF3, 0x05], 5⟩, 1, true, false⟩) := by
  decide

/-- C14, amended: close succeeds and clears the channel only; `currentPage`
and `inRMIBackdoor` have after the close, and after a reopen, the values they
had before.  So after the reopen `SetRMIPage` of the page that was current
before the close writes nothing, and a register function sends the enable
sequence exactly when the flag was clear before the close. -/
theorem C14_close_keeps_link_state (K : Ps2Codes) (self : FuSynapticsRmiPs2Device)
    (ch : FuIOChannel) :
    (fu_synaptics_rmi_ps2_device_close self).1 = .ok () ∧
    (fu_synaptics_rmi_ps2_device_close self).2.currentPage = self.currentPage ∧
    (fu_synaptics_rmi_ps2_device_close self).2.inRMIBackdoor = self.inRMIBackdoor ∧
    (fu_synaptics_rmi_ps2_device_open K (fu_synaptics_rmi_ps2_device_close self).2 ch).2.currentPage
      = self.currentPage ∧
    (fu_synaptics_rmi_ps2_device_open K
      (fu_synaptics_rmi_ps2_device_close self).2 ch).2.inRMIBackdoor = self.inRMIBackdoor ∧
    SetRMIPage K (fu_synaptics_rmi_ps2_device_open K
        (fu_synaptics_rmi_ps2_device_close self).2 ch).2 self.currentPage =
      (.ok (), (fu_synaptics_rmi_ps2_device_open K
        (fu_synaptics_rmi_ps2_device_close self).2 ch).2) ∧
    backdoor_bytes K (fu_synaptics_rmi_ps2_device_open K
        (fu_synaptics_rmi_ps2_device_close self).2 ch).2 = backdoor_bytes K self := by
  obtain ⟨o1, o2⟩ := open_keeps_link_state K (fu_synaptics_rmi_ps2_device_close self).2 ch
  have c1 : (fu_synaptics_rmi_ps2_device_close self).2.currentPage = self.currentPage := rfl
  have c2 : (fu_synaptics_rmi_ps2_device_close self).2.inRMIBackdoor = self.inRMIBackdoor := rfl
  refine ⟨rfl, c1, c2, o1.trans c1, o2.trans c2, ?_, ?_⟩
  · simp [SetRMIPage, o1.trans c1]
  · simp [backdoor_bytes, o2.trans c2]

theorem write_data_loop_send (K : Ps2Codes) (buf : List Nat) (t : Nat) :
    ∀ (n i : Nat) (ch : FuIOChannel), i + n ≤ buf.length →
      (write_data_loop K buf t n i ch).1.toBool =
        (send_bytes K t (((buf.drop i).take n).flatMap fun x => [K.edpAuxSetSampleRate, x]) ch).1 ∧
      (write_data_loop K buf t n i ch).2 =
        (send_bytes K t (((buf.drop i).take n).flatMap fun x => [K.edpAuxSetSampleRate, x]) ch).2
      := by
  intro n
  induction n with
  | zero => intro i ch _; simp [write_data_loop, send_bytes, Except.toBool]
  | succ n ih =>
    intro i ch hi
    have hlt : i < buf.length := by omega
    have e : (buf.drop i).take (n + 1) = buf[i] :: (buf.drop (i + 1)).take n := by
      rw [List.drop_eq_getElem_cons hlt, List.take_succ_cons]
    have hg : buf.getD i 0 = buf[i] := by
      simp [List.getD_eq_getElem?_getD, List.getElem?_eq_getElem hlt]
    rw [e, write_data_loop, hg]
    simp only [List.flatMap_cons, List.cons_append, List.nil_append, send_bytes]
    rcases WriteByte K ch K.edpAuxSetSampleRate t with ⟨r1, c1⟩
    rcases r1 with e1 | u
    · simp [Except.toBool]
    · simp only []
      rcases WriteByte K c1 buf[i] t with ⟨r2, c2⟩
      rcases r2 with e2 | u
      · simp [Except.toBool]
      · simp only []
        exact ih (i + 1) c2 (by omega)

theorem WriteRMIRegister_send (K : Ps2Codes) (self : FuSynapticsRmiPs2Device)
    (a : Nat) (d : List Nat) (n t : Nat) (hback : self.inRMIBackdoor = true)
    (hn : n ≤ d.length) (h8 : n < 256) :
    (WriteRMIRegister K self a d n t).1.toBool =
      (send_bytes K t (write_register_bytes K a d n) self.io_channel).1 ∧
    (WriteRMIRegister K self a d n t).2 =
      { self with io_channel :=
        (send_bytes K t (write_register_bytes K a d n) self.io_channel).2 } := by
  have hd := write_data_loop_send K d t n 0
  unfold WriteRMIRegister backdoor_guard write_register_bytes
  simp only [hback, if_true, List.cons_append, List.nil_append, send_bytes,
    Nat.mod_eq_of_lt h8]
  rcases WriteByte K self.io_channel K.edpAuxSetScaling2To1 t with ⟨r1, c1⟩
  rcases r1 with e1 | u
  · simp [Except.toBool]
  · simp only []
    rcases WriteByte K c1 K.edpAuxSetSampleRate t with ⟨r2, c2⟩
    rcases r2 with e2 | u
    · simp [Except.toBool]
    · simp only []
      rcases WriteByte K c2 a t with ⟨r3, c3⟩
      rcases r3 with e3 | u
      · simp [Except.toBool]
      · simp only []
        obtain ⟨h1, h2⟩ := hd c3 (by omega)
        simp only [List.drop_zero] at h1 h2
        rcases hw : write_data_loop K d t n 0 c3 with ⟨r4, c4⟩
        rw [hw] at h1 h2
        have h2c : c4 = (send_bytes K t
            ((d.take n).flatMap fun x => [K.edpAuxSetSampleRate, x]) c3).2 := h2
        rcases r4 with e4 | u
        · simp only [Except.toBool] at h1 ⊢
          refine ⟨h1, ?_⟩
          rw [h2c]
          rfl
        · simp only [Except.toBool] at h1 ⊢
          refine ⟨h1, ?_⟩
          rw [h2c]
          rfl

theorem send_bytes_acked_prefix {K : Ps2Codes} (hK : K.WF) (t : Nat) (rest : List Nat) :
    ∀ (pre : List Nat) (ch : FuIOChannel), (∀ x ∈ pre, x < 256) → Acks K pre.length ch →
      send_bytes K t (pre ++ rest) ch = send_bytes K t rest (ch.acked pre) := by
  intro pre
  induction pre with
  | nil => intro ch _ _; simp [acked_nil]
  | cons b pre ih =>
    intro ch hlt h
    have hb : b < 256 := hlt b (by simp)
    have h1 : Acks K (pre.length + 1) ch := by simpa using h
    have h2 : Acks K pre.length (ch.acked [b]) :=
      Acks.acked [b] (by simpa [Nat.add_comm] using h1)
    rw [List.cons_append, send_bytes, WriteByte_acked_lt hK h1 hb]
    simp only []
    rw [ih _ (fun x hx => hlt x (by simp [hx])) h2, acked_acked]
    rfl

theorem write_register_bytes_lt {K : Ps2Codes} (hK : K.WF) (a : Nat) (d : List Nat) (n : Nat)
    (ha : a < 256) (hd : ∀ x ∈ d, x < 256) : ∀ x ∈ write_register_bytes K a d n, x < 256 := by
  intro x hx
  unfold write_register_bytes at hx
  simp only [List.cons_append, List.nil_append, List.mem_cons, List.mem_flatMap,
    List.mem_singleton, List.not_mem_nil, or_false] at hx
  rcases hx with h | h | h | ⟨y, hy, h | h⟩
  · rw [h]; exact hK.scaling21_lt
  · rw [h]; exact hK.rate_lt
  · rw [h]; exact ha
  · rw [h]; exact hK.rate_lt
  · rw [h]; exact hd y (List.mem_of_mem_take hy)

theorem write_register_bytes_length (K : Ps2Codes) (a : Nat) (d : List Nat) (n : Nat)
    (hn : n ≤ d.length) : (write_register_bytes K a d n).length = 3 + 2 * n := by
  have : ∀ l : List Nat, (l.flatMap fun x => [K.edpAuxSetSampleRate, x]).length = 2 * l.length := by
    intro l
    induction l with
    | nil => rfl
    | cons y l ih => simp [List.flatMap_cons, ih]; omega
  unfold write_register_bytes
  simp [this, Nat.min_eq_left hn]
  omega

/-- C12: `WriteRMIRegister` in back-door mode, for an offset `a` that is a
byte and `n <= 255` data bytes.  Its byte sequence is set scaling 2:1, set
sample rate, `a`, then (set sample rate, `d[i]`) for `i = 0 .. n-1`, which is
`3 + 2n` bytes.  On an acknowledging transport it writes exactly this
sequence and succeeds.  If the first `k` bytes are acknowledged and the write
of byte `k` fails, it fails, the channel is as that write left it, and the
trace is the first `k` bytes followed by at most three copies of byte `k`:
none of the later bytes is written. -/
theorem C12_write_register_sequence (K : Ps2Codes) (hK : K.WF)
    (self : FuSynapticsRmiPs2Device) (a : Nat) (d : List Nat) (n t : Nat)
    (hback : self.inRMIBackdoor = true) (ha : a < 256) (hd : ∀ x ∈ d, x < 256)
    (hn : n ≤ d.length) (h8 : n ≤ 255) :
    (write_register_bytes K a d n).length = 3 + 2 * n ∧
    (Acks K (3 + 2 * n) self.io_channel →
      WriteRMIRegister K self a d n t =
        (.ok (), { self with io_channel :=
          self.io_channel.acked (write_register_bytes K a d n) })) ∧
    (∀ (k : Nat) (e : GError) (c : FuIOChannel), k < 3 + 2 * n → Acks K k self.io_channel →
      WriteByte K (self.io_channel.acked ((write_register_bytes K a d n).take k))
        ((write_register_bytes K a d n).getD k 0) t = (.error e, c) →
      (WriteRMIRegister K self a d n t).1.toBool = false ∧
      (WriteRMIRegister K self a d n t).2 = { self with io_channel := c } ∧
      ∃ j, j ≤ 3 ∧ c.written = self.io_channel.written ++
        (write_register_bytes K a d n).take k ++
        List.replicate j ((write_register_bytes K a d n).getD k 0)) := by
  have hlen := write_register_bytes_length K a d n hn
  have hlt := write_register_bytes_lt hK a d n ha hd
  obtain ⟨s1, s2⟩ := WriteRMIRegister_send K self a d n t hback hn (by omega)
  refine ⟨hlen, ?_, ?_⟩
  · intro hack
    have hs := send_bytes_acked_prefix hK t [] (write_register_bytes K a d n) self.io_channel
      hlt (by rw [hlen]; exact hack)
    rw [List.append_nil] at hs
    rw [hs] at s1 s2
    simp only [send_bytes] at s1 s2
    rcases hw : WriteRMIRegister K self a d n t with ⟨r, s⟩
    rw [hw] at s1 s2
    rcases r with e | u
    · simp [Except.toBool] at s1
    · simp only at s2
      rw [s2]
  · intro k e c hk hack hfail
    have hk' : k < (write_register_bytes K a d n).length := by rw [hlen]; exact hk
    have hsplit : write_register_bytes K a d n =
        (write_register_bytes K a d n).take k ++
          (write_register_bytes K a d n).getD k 0 :: (write_register_bytes K a d n).drop (k + 1)
        := by
      rw [List.getD_eq_getElem _ _ hk', ← List.drop_eq_getElem_cons hk',
        List.take_append_drop]
    have hxlt : (write_register_bytes K a d n).getD k 0 < 256 := by
      rw [List.getD_eq_getElem _ _ hk']
      exact hlt _ (List.getElem_mem _)
    have htake : ((write_register_bytes K a d n).take k).length = k := by
      rw [List.length_take]; omega
    have hs := send_bytes_acked_prefix hK t
      ((write_register_bytes K a d n).getD k 0 :: (write_register_bytes K a d n).drop (k + 1))
      ((write_register_bytes K a d n).take k) self.io_channel
      (fun x hx => hlt x (List.mem_of_mem_take hx)) (by rw [htake]; exact hack)
    rw [← hsplit, send_bytes, hfail] at hs
    simp only [] at hs
    rw [hs] at s1 s2
    refine ⟨s1, s2, ?_⟩
    obtain ⟨⟨j, hj, hw⟩, -⟩ := WriteByte_loop_frame K
      ((write_register_bytes K a d n).getD k 0 % 256) t 3 true
      (self.io_channel.acked ((write_register_bytes K a d n).take k))
    have hW : WriteByte_loop K ((write_register_bytes K a d n).getD k 0 % 256) t 3 true
        (self.io_channel.acked ((write_register_bytes K a d n).take k)) = (.error e, c) := hfail
    rw [hW, Nat.mod_eq_of_lt hxlt] at hw
    exact ⟨j, hj, by simpa [FuIOChannel.acked] using hw⟩

/-- An instance of C12: offset `0x10`, one data byte; every byte acknowledged
(five bytes written), and the second byte answered three times by a byte that
is no status (the trace stops at that byte). -/
theorem C12_write_register_sequence_witness :
    WriteRMIRegister ps2 ⟨⟨List.replicate 5 (.byte 0xFA), [], [], 0⟩, 0, true, false⟩
        0x10 [0x05] 1 20 =
      (.ok (), ⟨(FuIOChannel.mk (List.replicate 5 (.byte 0xFA)) [] [] 0).acked
        (write_register_bytes ps2 0x10 [0x05] 1), 0, true, false⟩) ∧
    (WriteRMIRegister ps2
        ⟨⟨[.byte 0xFA, .byte 0x00, .byte 0x00, .byte 0x00, .byte 0xFA], [], [], 0⟩,
          0, true, false⟩ 0x10 [0x05] 1 20).2 =
      ⟨⟨[.byte 0xFA], [], [0xE7, 0xF3], 4⟩, 0, true, false⟩ :=
  ⟨(C12_write_register_sequence ps2 (by decide)
      ⟨⟨List.replicate 5 (.byte 0xFA), [], [], 0⟩, 0, true, false⟩ 0x10 [0x05] 1 20
      rfl (by decide) (by decide) (by decide) (by decide)).2.1 (by decide),
   ((C12_write_register_sequence ps2 (by decide)
      ⟨⟨[.byte 0xFA, .byte 0x00, .byte 0x00, .byte 0x00, .byte 0xFA], [], [], 0⟩,
        0, true, false⟩ 0x10 [0x05] 1 20
      rfl (by decide) (by decide) (by decide) (by decide)).2.2 1 ⟨.FAILED, "failed"⟩
      ⟨[.byte 0xFA], [], [0xE7, 0xF3], 4⟩ (by decide) (by decide) (by decide)).2.1⟩

theorem ReadRMIRegister_triple {K : Ps2Codes} (hK : K.WF) (self : FuSynapticsRmiPs2Device)
    (addr v r0 r1 r2 : Nat) (rest : List RawRead)
    (h0 : r0 < 256) (h1 : r1 < 256) (h2 : r2 < 256)
    (hack : Acks K ((backdoor_bytes K self).length + 4) self.io_channel)
    (hrx : self.io_channel.rx.drop ((backdoor_bytes K self).length + 4) =
      .byte r0 :: .byte r1 :: .byte r2 :: rest) :
    ReadRMIRegister K self addr (some v) =
        (.ok r0, { self with io_channel :=
          ⟨rest, self.io_channel.tx.drop ((backdoor_bytes K self).length + 4),
            self.io_channel.written ++ backdoor_bytes K self ++
              [K.edpAuxSetScaling2To1, K.edpAuxSetSampleRate, addr % 256, K.edpAuxStatusRequest],
            self.io_channel.reads + ((backdoor_bytes K self).length + 4) + 3⟩ }) := by
  unfold ReadRMIRegister
  simp only []
  rw [backdoor_guard_acked hK (n := 4) self hack]
  simp only []
  rw [read_command_acked hK (n := 0) _ addr (by simpa using hack)]
  simp only []
  rw [read_response_loop_three _ r0 r1 r2 rest (by simpa [FuIOChannel.acked] using hrx) h0 h1 h2]
  simp only []
  rw [low_byte_acc r0 r1 r2 h0]
  simp [FuIOChannel.acked]

theorem read_registers_loop_triples {K : Ps2Codes} (hK : K.WF) (addr pg : Nat) (fl bl : Bool)
    (bd : List Nat) (hbd : ∀ c : FuIOChannel, backdoor_bytes K ⟨c, pg, fl, bl⟩ = bd) :
    ∀ (trs : List (Nat × Nat × Nat)) (pre suf : List Nat) (ch : FuIOChannel)
      (rest : List RawRead),
      (∀ tr ∈ trs, tr.1 < 256 ∧ tr.2.1 < 256 ∧ tr.2.2 < 256) → trs.length ≤ suf.length →
      TxOk ch →
      ch.rx = trs.flatMap (register_read_script K (bd.length + 4)) ++ rest →
      read_registers_loop K addr trs.length pre.length (some (pre ++ suf)) ⟨ch, pg, fl, bl⟩ =
        (.ok (some (pre ++ trs.map (fun tr => tr.1) ++ suf.drop trs.length)),
          ⟨⟨rest, ch.tx.drop ((bd.length + 4) * trs.length),
            ch.written ++ (List.range' pre.length trs.length).flatMap (fun j =>
              bd ++ [K.edpAuxSetScaling2To1, K.edpAuxSetSampleRate,
                ((addr &&& 0x00FF) + j) % 256, K.edpAuxStatusRequest]),
            ch.reads + (bd.length + 4 + 3) * trs.length⟩, pg, fl, bl⟩) := by
  intro trs
  induction trs with
  | nil =>
    intro pre suf ch rest _ _ _ hrx
    obtain ⟨rx, tx, w, k⟩ := ch
    simp only [List.flatMap_nil, List.nil_append] at hrx
    subst hrx
    simp [read_registers_loop]
  | cons tr trs ih =>
    intro pre suf ch rest hr hl htx hrx
    obtain ⟨r0, r1, r2⟩ := tr
    rcases suf with _ | ⟨s, suf⟩
    · simp at hl
    · obtain ⟨h0, h1, h2⟩ := hr (r0, r1, r2) (by simp)
      have hrx' : ch.rx = List.replicate (bd.length + 4) (RawRead.byte K.edpsAcknowledge) ++
          (.byte r0 :: .byte r1 :: .byte r2 ::
            (trs.flatMap (register_read_script K (bd.length + 4)) ++ rest)) := by
        rw [hrx]
        simp [List.flatMap_cons, register_read_script]
      have hack : Acks K ((backdoor_bytes K ⟨ch, pg, fl, bl⟩).length + 4)
          (FuSynapticsRmiPs2Device.mk ch pg fl bl).io_channel := by
        rw [hbd]
        refine ⟨?_, htx⟩
        show ch.rx.take (bd.length + 4) = _
        rw [hrx', List.take_left' (by simp)]
      have hdrop : (FuSynapticsRmiPs2Device.mk ch pg fl bl).io_channel.rx.drop
          ((backdoor_bytes K ⟨ch, pg, fl, bl⟩).length + 4) =
          .byte r0 :: .byte r1 :: .byte r2 ::
            (trs.flatMap (register_read_script K (bd.length + 4)) ++ rest) := by
        rw [hbd]
        show ch.rx.drop (bd.length + 4) = _
        rw [hrx', List.drop_left' (by simp)]
      have hread := ReadRMIRegister_triple hK ⟨ch, pg, fl, bl⟩
        (((addr &&& 0x00FF) + pre.length) % 256) ((pre ++ s :: suf).getD pre.length 0)
        r0 r1 r2 _ h0 h1 h2 hack hdrop
      rw [hbd] at hread
      have e : (pre ++ s :: suf).set pre.length r0 = (pre ++ [r0]) ++ suf := by
        rw [List.set_append_right _ _ (Nat.le_refl _)]
        simp
      have ih' := ih (pre ++ [r0]) suf
        ⟨trs.flatMap (register_read_script K (bd.length + 4)) ++ rest,
          ch.tx.drop (bd.length + 4),
          ch.written ++ bd ++ [K.edpAuxSetScaling2To1, K.edpAuxSetSampleRate,
            ((addr &&& 0x00FF) + pre.length) % 256 % 256, K.edpAuxStatusRequest],
          ch.reads + (bd.length + 4) + 3⟩ rest
        (fun x hx => hr x (by simp [hx])) (by simpa using hl)
        (fun w hw => htx w (List.mem_of_mem_drop hw)) rfl
      simp only [List.length_append, List.length_cons, List.length_nil, Nat.zero_add] at ih'
      rw [List.length_cons, read_registers_loop]
      simp only [Option.map_some']
      rw [hread]
      simp only [e]
      rw [ih']
      simp only [List.map_cons, List.drop_succ_cons, List.range'_succ, List.flatMap_cons,
        List.drop_drop, Nat.mod_mod, List.append_assoc, List.singleton_append,
        List.cons_append, List.nil_append]
      have a1 : bd.length + 4 + (bd.length + 4) * trs.length =
          (bd.length + 4) * (trs.length + 1) := by rw [Nat.mul_succ]; omega
      have a2 : ch.reads + (bd.length + 4) + 3 + (bd.length + 4 + 3) * trs.length =
          ch.reads + (bd.length + 4 + 3) * (trs.length + 1) := by rw [Nat.mul_succ]; omega
      have a3 : (bd.length + 4) * trs.length + (bd.length + 4) =
          (bd.length + 4) * (trs.length + 1) := by rw [Nat.mul_succ]
      simp only [a1, a2, a3]

/-- What `Read` does after its page selection: the address is a byte, the page selection
(`SetRMIPage (addr >> 8)`, made once, first) having succeeded and left the
state `s1`.  With `isPacketRegister = FALSE` and a transport that, for each
of the `len` registers in turn, acknowledges the bytes of the call and then
delivers three raw bytes, `Read` makes `len` register reads: the trace is one
command group for each `i < len`, addressed to `(addr + i) % 256`, each read
takes its own three raw bytes, and `buf[i]` becomes the first byte of the
`i`-th triple.  With `isPacketRegister = TRUE` it is one call of
`ReadRMIPacketRegister` for all `len` bytes. -/
theorem Read_after_page_select (K : Ps2Codes) (hK : K.WF) (self s1 : FuSynapticsRmiPs2Device)
    (addr len : Nat) (buf : List Nat) (trs : List (Nat × Nat × Nat)) (rest : List RawRead)
    (ha : addr < 256) (hlen : len ≤ 255) (hbuf : len ≤ buf.length) (htrs : trs.length = len)
    (hr : ∀ tr ∈ trs, tr.1 < 256 ∧ tr.2.1 < 256 ∧ tr.2.2 < 256)
    (hsel : SetRMIPage K self (addr >>> 8) = (.ok (), s1))
    (htx : TxOk s1.io_channel)
    (hrx : s1.io_channel.rx =
      trs.flatMap (register_read_script K ((backdoor_bytes K s1).length + 4)) ++ rest) :
    Read K self addr (some buf) len false =
      (.ok (some (trs.map (fun tr => tr.1) ++ buf.drop len)),
        { s1 with io_channel :=
          ⟨rest, s1.io_channel.tx.drop (((backdoor_bytes K s1).length + 4) * len),
            s1.io_channel.written ++ (List.range len).flatMap (fun i =>
              backdoor_bytes K s1 ++ [K.edpAuxSetScaling2To1, K.edpAuxSetSampleRate,
                (addr + i) % 256, K.edpAuxStatusRequest]),
            s1.io_channel.reads + ((backdoor_bytes K s1).length + 4 + 3) * len⟩ }) ∧
    (∀ b : Option (List Nat), Read K self addr b len true =
      match ReadRMIPacketRegister K s1 addr b len with
      | (.error e, s2) => (.error (g_prefix_error e "failed packet register read %x:"), s2)
      | (.ok o, s2) => (.ok (some o), s2)) := by
  have hl8 : len % 256 = len := Nat.mod_eq_of_lt (by omega)
  have ha8 : addr % 256 = addr := Nat.mod_eq_of_lt ha
  have hand : addr &&& 0x00FF = addr := by
    have := Nat.and_pow_two_sub_one_eq_mod addr 8
    simpa [ha8] using this
  constructor
  · obtain ⟨ch, pg, fl, bl⟩ := s1
    have hloop := read_registers_loop_triples hK addr pg fl bl
      (backdoor_bytes K ⟨ch, pg, fl, bl⟩) (fun c => rfl) trs [] buf ch rest hr
      (by rw [htrs]; exact hbuf) htx hrx
    simp only [List.length_nil, List.nil_append, htrs, hand] at hloop
    unfold Read
    simp only [ha8, hl8, hsel, Bool.false_eq_true, if_false]
    rw [hloop, List.range_eq_range']
  · intro b
    unfold Read
    simp only [ha8, hl8, hsel, if_true]

theorem SetRMIPage_acked {K : Ps2Codes} (hK : K.WF) (self : FuSynapticsRmiPs2Device)
    (p : Nat) (hp : p < 256)
    (h : Acks K (page_select_bytes K self p).length self.io_channel) :
    SetRMIPage K self p =
      (.ok (), { self with
        io_channel := self.io_channel.acked (page_select_bytes K self p),
        currentPage := p }) := by
  unfold SetRMIPage
  by_cases hc : self.currentPage = p
  · obtain ⟨ch, pg, fl, bl⟩ := self
    simp only at hc
    subst hc
    simp [page_select_bytes, acked_nil]
  · have hb : page_select_bytes K self p = backdoor_bytes K self ++
        [K.edpAuxSetScaling2To1, K.edpAuxSetSampleRate, 0xFF, K.edpAuxSetSampleRate, p % 256]
        := by simp [page_select_bytes, hc]
    rw [if_neg hc, hb]
    have hw := WriteRMIRegister_acked hK self 0xFF [p % 256] 1 20 (by simp) (by decide)
      (by
        rw [hb] at h
        simpa [Nat.add_assoc] using h)
    rw [hw]
    simp [Nat.mod_eq_of_lt hp]

/-- C19 as stated fails: `Read (0xFF, len = 2)` of plain registers.  The second
register read is addressed to offset `0x00` of the same page, not to the
register `0xFF + 1`: the trace is the command group for `0xFF`, then the one
for `0x00`, and the page is still 0. -/
theorem C19_offset_wraps_in_page :
    Read ps2 ⟨⟨List.replicate 4 (.byte 0xFA) ++ [.byte 0x7A, .byte 0xFF, .byte 0xFF] ++
        (List.replicate 4 (.byte 0xFA) ++ [.byte 0x7B, .byte 0x00, .byte 0x00]), [], [], 0⟩,
        0, true, false⟩ 0xFF (some [0, 0]) 2 false =
      (.ok (some [0x7A, 0x7B]),
        ⟨⟨[], [], [0xE7, 0xF3, 0xFF, 0xE9, 0xE7, 0xF3, 0x00, 0xE9], 14⟩, 0, true, false⟩) := by
  decide

/-- C19, amended: `Read` of an address inside one page (a byte, as the
function declares it) on a transport that acknowledges the bytes of the page
selection and then, for each of the `len` registers in turn, acknowledges the
bytes of the read and delivers three raw bytes.  `SetRMIPage (addr >> 8)` runs
once, first: its bytes (one page-control write when page 0 is not current,
none otherwise) come before every register command and the page ends as 0.
With `isPacketRegister = FALSE` there follow `len` register reads, the `i`-th
addressed to offset `(addr + i) % 256` (the offset wraps inside the page),
each taking its own three raw bytes, and `buf[i]` becomes the first byte of
the `i`-th triple.  With `isPacketRegister = TRUE` the page selection is
followed by one call of `ReadRMIPacketRegister` for all `len` bytes. -/
theorem C19_read_offsets_wrap (K : Ps2Codes) (hK : K.WF) (self : FuSynapticsRmiPs2Device)
    (addr len : Nat) (buf : List Nat) (trs : List (Nat × Nat × Nat)) (rest : List RawRead)
    (ha : addr < 256) (hlen : len ≤ 255) (hbuf : len ≤ buf.length) (htrs : trs.length = len)
    (hr : ∀ tr ∈ trs, tr.1 < 256 ∧ tr.2.1 < 256 ∧ tr.2.2 < 256)
    (htx : TxOk self.io_channel)
    (hrx : self.io_channel.rx =
      List.replicate (page_select_bytes K self 0).length (RawRead.byte K.edpsAcknowledge) ++
        (trs.flatMap (register_read_script K ((backdoor_bytes K self).length + 4)) ++ rest)) :
    Read K self addr (some buf) len false =
      (.ok (some (trs.map (fun tr => tr.1) ++ buf.drop len)),
        ⟨⟨rest,
          self.io_channel.tx.drop ((page_select_bytes K self 0).length +
            ((backdoor_bytes K self).length + 4) * len),
          self.io_channel.written ++ page_select_bytes K self 0 ++
            (List.range len).flatMap (fun i =>
              backdoor_bytes K self ++ [K.edpAuxSetScaling2To1, K.edpAuxSetSampleRate,
                (addr + i) % 256, K.edpAuxStatusRequest]),
          self.io_channel.reads + (page_select_bytes K self 0).length +
            ((backdoor_bytes K self).length + 4 + 3) * len⟩,
          0, self.inRMIBackdoor, self.is_bootloader⟩) ∧
    (∀ i, i < len → addr + i ≤ 255 → (addr + i) % 256 = addr + i) ∧
    (∀ b : Option (List Nat), Read K self addr b len true =
      match SetRMIPage K self 0 with
      | (.error e, s1) => (.error (g_prefix_error e "failed to set RMI page:"), s1)
      | (.ok _, s1) =>
        match ReadRMIPacketRegister K s1 addr b len with
        | (.error e, s2) => (.error (g_prefix_error e "failed packet register read %x:"), s2)
        | (.ok o, s2) => (.ok (some o), s2)) := by
  have hshift : addr >>> 8 = 0 := by
    rw [Nat.shiftRight_eq_div_pow]
    omega
  have hacks : Acks K (page_select_bytes K self 0).length self.io_channel := by
    refine ⟨?_, htx⟩
    rw [hrx, List.take_left' (by simp)]
  have hsel := SetRMIPage_acked hK self 0 (by decide) hacks
  refine ⟨?_, fun i _ h => Nat.mod_eq_of_lt (by omega), ?_⟩
  · have hbd : backdoor_bytes K
        ({ self with io_channel := self.io_channel.acked (page_select_bytes K self 0),
                     currentPage := 0 } : FuSynapticsRmiPs2Device) = backdoor_bytes K self := rfl
    have hmain := (Read_after_page_select K hK self
      { self with io_channel := self.io_channel.acked (page_select_bytes K self 0),
                  currentPage := 0 }
      addr len buf trs rest ha hlen hbuf htrs hr (by rw [hshift]; exact hsel)
      (fun w hw => htx w (List.mem_of_mem_drop hw))
      (by
        rw [hbd]
        show self.io_channel.rx.drop (page_select_bytes K self 0).length = _
        rw [hrx, List.drop_left' (by simp)])).1
    rw [hmain, hbd]
    simp [FuIOChannel.acked, List.drop_drop, Nat.add_comm, Nat.add_assoc, Nat.add_left_comm]
  · intro b
    have hl8 : len % 256 = len := Nat.mod_eq_of_lt (by omega)
    have ha8 : addr % 256 = addr := Nat.mod_eq_of_lt ha
    unfold Read
    simp only [ha8, hl8, hshift, if_true]

/-- An instance of amended C19: two registers from offset `0xFF` with page 1
current, back-door mode.  The page-control write `E7 F3 FF F3 00` comes first
and once, then the command groups for offsets `0xFF` and `0x00`. -/
theorem C19_read_offsets_wrap_witness :
    Read ps2 ⟨⟨List.replicate 5 (.byte 0xFA) ++
        (List.replicate 4 (.byte 0xFA) ++ [.byte 0x7A, .byte 0xFF, .byte 0xFF] ++
        (List.replicate 4 (.byte 0xFA) ++ [.byte 0x7B, .byte 0x00, .byte 0x00])), [], [], 0⟩,
        1, true, false⟩ 0xFF (some [0, 0]) 2 false =
      (.ok (some [0x7A, 0x7B]),
        ⟨⟨[], [], [0xE7, 0xF3, 0xFF, 0xF3, 0x00] ++
          [0xE7, 0xF3, 0xFF, 0xE9, 0xE7, 0xF3, 0x00, 0xE9], 19⟩, 0, true, false⟩) :=
  (C19_read_offsets_wrap ps2 (by decide)
    ⟨⟨List.replicate 5 (.byte 0xFA) ++
        (List.replicate 4 (.byte 0xFA) ++ [.byte 0x7A, .byte 0xFF, .byte 0xFF] ++
        (List.replicate 4 (.byte 0xFA) ++ [.byte 0x7B, .byte 0x00, .byte 0x00])), [], [], 0⟩,
        1, true, false⟩
    0xFF 2 [0, 0] [(0x7A, 0xFF, 0xFF), (0x7B, 0x00, 0x00)] []
    (by decide) (by decide) (by decide) (by decide) (by decide) (by decide)
    (by decide)).1

end SynapticsRmiPs2
